import Mathlib

/-
Verification development for the chippy8 CHIP-8 virtual machine.

The Rust sources are embedded shallowly:
  * src/display.rs      -> display buffer as a function from flat index to Bool,
                           with the write-sprite / set-pos / to-bits trio
  * src/memory.rs       -> memory as a list of byte values; out-of-bounds
                           accesses (which panic in Rust) return none
  * src/keyboard.rs     -> the 16 key flags as a list of Bool
  * src/timer.rs        -> the delay/sound timer pair, with wall-clock instants
                           as natural numbers of nanoseconds threaded explicitly
  * src/interpreter.rs, src/interpreter/instructions.rs,
    src/interpreter/fetch_execute.rs -> the Interpreter state machine
  * src/processor.rs, src/processor/executor.rs,
    src/processor/instructions.rs    -> the parallel Processor state machine
Machine integers are modelled as Nat with explicit truncation (% 256, % 65536)
exactly where the Rust code wraps, and as checked arithmetic (an error value)
where the Rust code uses an operator that panics on overflow in debug builds.
Panics are modelled as Except.error values.

The display constants WIDTH = 64 and HEIGHT = 32 of src/display.rs appear as
the literals 64 and 32 throughout.
-/

namespace Chippy8

/-! ## Small list helper lemmas -/

theorem getD_set_self (l : List Nat) (i a d : Nat) (h : i < l.length) :
    (l.set i a).getD i d = a := by
  induction l generalizing i with
  | nil => simp at h
  | cons hd tl ih =>
    cases i with
    | zero => simp [List.set]
    | succ j =>
      simp only [List.set, List.getD_cons_succ]
      exact ih j (by simpa using h)

theorem getD_set_other (l : List Nat) (i j a d : Nat) (h : i ≠ j) :
    (l.set i a).getD j d = l.getD j d := by
  induction l generalizing i j with
  | nil => simp [List.set]
  | cons hd tl ih =>
    cases i with
    | zero =>
      cases j with
      | zero => exact absurd rfl h
      | succ k => simp [List.set]
    | succ i2 =>
      cases j with
      | zero => simp [List.set]
      | succ k =>
        simp only [List.set, List.getD_cons_succ]
        exact ih i2 k (fun hc => h (by rw [hc]))

/-! ## DisplayBuffer (src/display.rs)

The source stores a flat `[bool; 64 * 32]` array indexed by `y * 64 + x`.
It is embedded as a total function from the flat index to Bool; the in-range
check of set_pos guarantees the source never indexes out of bounds. -/

/-- set_pos from src/display.rs: out-of-range writes are dropped (returning
collision false); in-range writes XOR the bit in and report the AND of the
old pixel with the new bit. -/
def set_pos (buf : Nat → Bool) (x y : Nat) (val : Bool) : (Nat → Bool) × Bool :=
  if 64 ≤ x ∨ 32 ≤ y then (buf, false)
  else
    ((fun i => if i = y * 64 + x then Bool.xor (buf i) val else buf i),
     buf (y * 64 + x) && val)

/-- to_bits from src/display.rs: the eight bits of a byte, most significant
first. -/
def to_bits (b : Nat) : List Bool :=
  [b >>> 7 == 1, (b >>> 6) &&& 1 == 1, (b >>> 5) &&& 1 == 1, (b >>> 4) &&& 1 == 1,
   (b >>> 3) &&& 1 == 1, (b >>> 2) &&& 1 == 1, (b >>> 1) &&& 1 == 1, b &&& 1 == 1]

/-- The inner loop of write_sprite: one sprite row, bit by bit, with the
running collision flag; offX is the enumerate counter. -/
def write_bits (buf : Nat → Bool) (col : Bool) (x y offX : Nat) :
    List Bool → (Nat → Bool) × Bool
  | [] => (buf, col)
  | bit :: rest =>
    let r := set_pos buf (x + offX) y bit
    write_bits r.1 (col || r.2) x y (offX + 1) rest

/-- The outer loop of write_sprite: row bytes with the enumerate counter offY. -/
def write_rows (buf : Nat → Bool) (col : Bool) (x y offY : Nat) :
    List Nat → (Nat → Bool) × Bool
  | [] => (buf, col)
  | byte :: rest =>
    let r := write_bits buf col x (y + offY) 0 (to_bits byte)
    write_rows r.1 r.2 x y (offY + 1) rest

/-- write_sprite from src/display.rs. -/
def write_sprite (buf : Nat → Bool) (sprite : List Nat) (x y : Nat) :
    (Nat → Bool) × Bool :=
  write_rows buf false x y 0 sprite

/-! ### Characterization machinery for write_sprite -/

/-- The accumulated XOR contribution of one row of bits to flat index i. -/
def hit_bits (x y offX i : Nat) : List Bool → Bool
  | [] => false
  | bit :: rest =>
    Bool.xor
      (decide (x + offX < 64) && decide (y < 32) &&
        decide (i = y * 64 + (x + offX)) && bit)
      (hit_bits x y (offX + 1) i rest)

/-- The accumulated XOR contribution of a whole sprite to flat index i. -/
def hit_rows (x y offY i : Nat) : List Nat → Bool
  | [] => false
  | byte :: rest =>
    Bool.xor (hit_bits x (y + offY) 0 i (to_bits byte))
      (hit_rows x y (offY + 1) i rest)

/-- The collision contribution of one row of bits, read against a fixed
buffer. -/
def coll_bits (buf : Nat → Bool) (x y offX : Nat) : List Bool → Bool
  | [] => false
  | bit :: rest =>
    (decide (x + offX < 64) && decide (y < 32) &&
      (buf (y * 64 + (x + offX)) && bit))
      || coll_bits buf x y (offX + 1) rest

/-- The collision contribution of a whole sprite, read against a fixed
buffer. -/
def coll_rows (buf : Nat → Bool) (x y offY : Nat) : List Nat → Bool
  | [] => false
  | byte :: rest =>
    coll_bits buf x (y + offY) 0 (to_bits byte)
      || coll_rows buf x y (offY + 1) rest

theorem set_pos_fst (buf : Nat → Bool) (x y : Nat) (val : Bool) (i : Nat) :
    (set_pos buf x y val).1 i =
      Bool.xor (buf i)
        (decide (x < 64) && decide (y < 32) &&
          decide (i = y * 64 + x) && val) := by
  by_cases h : 64 ≤ x ∨ 32 ≤ y
  · rw [set_pos, if_pos h]
    rcases Nat.lt_or_ge x 64 with hlt | hge
    · have hy : ¬ y < 32 := by omega
      simp [hy]
    · have hx : ¬ x < 64 := by omega
      simp [hx]
  · rw [set_pos, if_neg h]
    have hx : x < 64 := by omega
    have hy : y < 32 := by omega
    by_cases hi : i = y * 64 + x
    · simp [hx, hy, hi]
    · simp [hx, hy, hi]

theorem set_pos_snd (buf : Nat → Bool) (x y : Nat) (val : Bool) :
    (set_pos buf x y val).2 =
      (decide (x < 64) && decide (y < 32) &&
        (buf (y * 64 + x) && val)) := by
  by_cases h : 64 ≤ x ∨ 32 ≤ y
  · rw [set_pos, if_pos h]
    rcases Nat.lt_or_ge x 64 with hlt | hge
    · have hy : ¬ y < 32 := by omega
      simp [hy]
    · have hx : ¬ x < 64 := by omega
      simp [hx]
  · rw [set_pos, if_neg h]
    have hx : x < 64 := by omega
    have hy : y < 32 := by omega
    simp [hx, hy]

theorem write_bits_fst (x y : Nat) :
    ∀ (bits : List Bool) (buf : Nat → Bool) (col : Bool) (offX i : Nat),
      (write_bits buf col x y offX bits).1 i =
        Bool.xor (buf i) (hit_bits x y offX i bits) := by
  intro bits
  induction bits with
  | nil => intro buf col offX i; simp [write_bits, hit_bits]
  | cons bit rest ih =>
    intro buf col offX i
    rw [write_bits, hit_bits]
    rw [ih]
    rw [set_pos_fst]
    rw [Bool.xor_assoc]

theorem coll_bits_congr (x y : Nat) :
    ∀ (bits : List Bool) (buf1 buf2 : Nat → Bool) (offX : Nat),
      (∀ j, offX ≤ j → x + j < 64 → y < 32 →
        buf1 (y * 64 + (x + j)) = buf2 (y * 64 + (x + j))) →
      coll_bits buf1 x y offX bits = coll_bits buf2 x y offX bits := by
  intro bits
  induction bits with
  | nil => intro buf1 buf2 offX h; simp [coll_bits]
  | cons bit rest ih =>
    intro buf1 buf2 offX h
    rw [coll_bits, coll_bits]
    have hrest : coll_bits buf1 x y (offX + 1) rest
        = coll_bits buf2 x y (offX + 1) rest :=
      ih buf1 buf2 (offX + 1) (fun j hj => h j (by omega))
    rw [hrest]
    by_cases hx : x + offX < 64
    · by_cases hy : y < 32
      · rw [h offX (Nat.le_refl offX) hx hy]
      · simp [hy]
    · simp [hx]

theorem write_bits_snd (x y : Nat) :
    ∀ (bits : List Bool) (buf : Nat → Bool) (col : Bool) (offX : Nat),
      (write_bits buf col x y offX bits).2 =
        (col || coll_bits buf x y offX bits) := by
  intro bits
  induction bits with
  | nil => intro buf col offX; simp [write_bits, coll_bits]
  | cons bit rest ih =>
    intro buf col offX
    rw [write_bits, coll_bits]
    rw [ih]
    have hcongr : coll_bits (set_pos buf (x + offX) y bit).1 x y (offX + 1) rest
        = coll_bits buf x y (offX + 1) rest := by
      apply coll_bits_congr
      intro j hj hxj hyj
      rw [set_pos_fst]
      have hne : y * 64 + (x + j) ≠ y * 64 + (x + offX) := by omega
      simp [hne]
    rw [hcongr, set_pos_snd, Bool.or_assoc]

theorem hit_bits_eq_false (x y : Nat) :
    ∀ (bits : List Bool) (offX i : Nat),
      (∀ j, offX ≤ j → j < offX + bits.length → x + j < 64 → y < 32 →
        i ≠ y * 64 + (x + j)) →
      hit_bits x y offX i bits = false := by
  intro bits
  induction bits with
  | nil => intro offX i h; simp [hit_bits]
  | cons bit rest ih =>
    intro offX i h
    rw [hit_bits]
    have hrest : hit_bits x y (offX + 1) i rest = false := by
      apply ih
      intro j hj1 hj2 hx hy
      exact h j (by omega) (by simp only [List.length_cons]; omega) hx hy
    rw [hrest, Bool.xor_false]
    by_cases hx : x + offX < 64
    · by_cases hy : y < 32
      · have := h offX (Nat.le_refl offX) (by simp only [List.length_cons]; omega) hx hy
        simp [this]
      · simp [hy]
    · simp [hx]

theorem hit_bits_at (x y : Nat) :
    ∀ (bits : List Bool) (offX c : Nat), c < bits.length →
      x + offX + c < 64 → y < 32 →
      hit_bits x y offX (y * 64 + (x + offX + c)) bits = bits.getD c false := by
  intro bits
  induction bits with
  | nil => intro offX c hc; simp at hc
  | cons bit rest ih =>
    intro offX c hc hx hy
    rw [hit_bits]
    cases c with
    | zero =>
      have hrest : hit_bits x y (offX + 1) (y * 64 + (x + offX + 0)) rest = false := by
        apply hit_bits_eq_false
        intro j hj1 hj2 hxj hyj
        omega
      rw [hrest, Bool.xor_false]
      have hx0 : x + offX < 64 := by omega
      have hidx : y * 64 + (x + offX + 0) = y * 64 + (x + offX) := by omega
      simp [hx0, hy, hidx]
    | succ c2 =>
      have hne : y * 64 + (x + offX + (c2 + 1)) ≠ y * 64 + (x + offX) := by omega
      have hhead : (decide (x + offX < 64) && decide (y < 32) &&
          decide (y * 64 + (x + offX + (c2 + 1)) = y * 64 + (x + offX)) && bit)
          = false := by
        simp [hne]
      rw [hhead, Bool.false_xor]
      have harg : y * 64 + (x + offX + (c2 + 1)) = y * 64 + (x + (offX + 1) + c2) := by
        omega
      rw [harg]
      rw [ih (offX + 1) c2 (by simpa using hc) (by omega) hy]
      simp

theorem coll_bits_iff (x y : Nat) :
    ∀ (bits : List Bool) (buf : Nat → Bool) (offX : Nat),
      coll_bits buf x y offX bits = true ↔
        ∃ c, c < bits.length ∧ x + offX + c < 64 ∧ y < 32 ∧
          buf (y * 64 + (x + offX + c)) = true ∧ bits.getD c false = true := by
  intro bits
  induction bits with
  | nil => intro buf offX; simp [coll_bits]
  | cons bit rest ih =>
    intro buf offX
    rw [coll_bits, Bool.or_eq_true, ih]
    constructor
    · rintro (h | ⟨c, hc, hxc, hyc, hbuf, hbit⟩)
      · simp only [Bool.and_eq_true, decide_eq_true_eq] at h
        obtain ⟨⟨hx, hy⟩, hb, hbit⟩ := h
        refine ⟨0, by simp, by omega, hy, ?_, by simpa using hbit⟩
        have hidx : y * 64 + (x + offX + 0) = y * 64 + (x + offX) := by omega
        rw [hidx]; exact hb
      · refine ⟨c + 1, by simpa using Nat.succ_lt_succ hc, by omega, hyc, ?_, by simpa using hbit⟩
        have hidx : y * 64 + (x + offX + (c + 1)) = y * 64 + (x + (offX + 1) + c) := by omega
        rw [hidx]; exact hbuf
    · rintro ⟨c, hc, hxc, hyc, hbuf, hbit⟩
      cases c with
      | zero =>
        left
        simp only [Bool.and_eq_true, decide_eq_true_eq]
        refine ⟨⟨by omega, hyc⟩, ?_, by simpa using hbit⟩
        have hidx : y * 64 + (x + offX) = y * 64 + (x + offX + 0) := by omega
        rw [hidx]; exact hbuf
      | succ c2 =>
        right
        refine ⟨c2, by simpa using hc, by omega, hyc, ?_, by simpa using hbit⟩
        have hidx : y * 64 + (x + (offX + 1) + c2) = y * 64 + (x + offX + (c2 + 1)) := by omega
        rw [hidx]; exact hbuf

theorem to_bits_length (b : Nat) : (to_bits b).length = 8 := by
  simp [to_bits]

theorem write_rows_fst (x y : Nat) :
    ∀ (sprite : List Nat) (buf : Nat → Bool) (col : Bool) (offY i : Nat),
      (write_rows buf col x y offY sprite).1 i =
        Bool.xor (buf i) (hit_rows x y offY i sprite) := by
  intro sprite
  induction sprite with
  | nil => intro buf col offY i; simp [write_rows, hit_rows]
  | cons byte rest ih =>
    intro buf col offY i
    rw [write_rows, hit_rows]
    rw [ih]
    rw [write_bits_fst]
    rw [Bool.xor_assoc]

theorem coll_rows_congr (x y : Nat) :
    ∀ (sprite : List Nat) (buf1 buf2 : Nat → Bool) (offY : Nat),
      (∀ r j, offY ≤ r → x + j < 64 → y + r < 32 →
        buf1 ((y + r) * 64 + (x + j)) = buf2 ((y + r) * 64 + (x + j))) →
      coll_rows buf1 x y offY sprite = coll_rows buf2 x y offY sprite := by
  intro sprite
  induction sprite with
  | nil => intro buf1 buf2 offY h; simp [coll_rows]
  | cons byte rest ih =>
    intro buf1 buf2 offY h
    rw [coll_rows, coll_rows]
    have hhead : coll_bits buf1 x (y + offY) 0 (to_bits byte)
        = coll_bits buf2 x (y + offY) 0 (to_bits byte) := by
      apply coll_bits_congr
      intro j hj hxj hyj
      exact h offY j (Nat.le_refl offY) hxj hyj
    have hrest : coll_rows buf1 x y (offY + 1) rest
        = coll_rows buf2 x y (offY + 1) rest :=
      ih buf1 buf2 (offY + 1) (fun r j hr => h r j (by omega))
    rw [hhead, hrest]

theorem write_rows_snd (x y : Nat) :
    ∀ (sprite : List Nat) (buf : Nat → Bool) (col : Bool) (offY : Nat),
      (write_rows buf col x y offY sprite).2 =
        (col || coll_rows buf x y offY sprite) := by
  intro sprite
  induction sprite with
  | nil => intro buf col offY; simp [write_rows, coll_rows]
  | cons byte rest ih =>
    intro buf col offY
    rw [write_rows, coll_rows]
    rw [ih]
    have hcongr : coll_rows (write_bits buf col x (y + offY) 0 (to_bits byte)).1 x y (offY + 1) rest
        = coll_rows buf x y (offY + 1) rest := by
      apply coll_rows_congr
      intro r j hr hxj hyj
      rw [write_bits_fst]
      have hfalse : hit_bits x (y + offY) 0 ((y + r) * 64 + (x + j)) (to_bits byte) = false := by
        apply hit_bits_eq_false
        intro j2 hj1 hj2 hxj2 hyj2
        omega
      rw [hfalse, Bool.xor_false]
    rw [hcongr, write_bits_snd, Bool.or_assoc]

theorem hit_rows_eq_false (x y : Nat) :
    ∀ (sprite : List Nat) (offY i : Nat),
      (∀ r c, offY ≤ r → r < offY + sprite.length → c < 8 →
        x + c < 64 → y + r < 32 → i ≠ (y + r) * 64 + (x + c)) →
      hit_rows x y offY i sprite = false := by
  intro sprite
  induction sprite with
  | nil => intro offY i h; simp [hit_rows]
  | cons byte rest ih =>
    intro offY i h
    rw [hit_rows]
    have hhead : hit_bits x (y + offY) 0 i (to_bits byte) = false := by
      apply hit_bits_eq_false
      intro j hj1 hj2 hxj hyj
      rw [to_bits_length] at hj2
      have := h offY j (Nat.le_refl offY) (by simp only [List.length_cons]; omega)
        (by omega) hxj (by omega)
      omega
    have hrest : hit_rows x y (offY + 1) i rest = false := by
      apply ih
      intro r c hr1 hr2 hc hxc hyc
      exact h r c (by omega) (by simp only [List.length_cons]; omega) hc hxc hyc
    rw [hhead, hrest]
    simp

theorem hit_rows_at (x y : Nat) :
    ∀ (sprite : List Nat) (offY r c : Nat), r < sprite.length → c < 8 →
      x + c < 64 → y + offY + r < 32 →
      hit_rows x y offY ((y + offY + r) * 64 + (x + c)) sprite =
        (to_bits (sprite.getD r 0)).getD c false := by
  intro sprite
  induction sprite with
  | nil => intro offY r c hr; simp at hr
  | cons byte rest ih =>
    intro offY r c hr hc hx hy
    rw [hit_rows]
    cases r with
    | zero =>
      have hrest : hit_rows x y (offY + 1)
          ((y + offY + 0) * 64 + (x + c)) rest = false := by
        apply hit_rows_eq_false
        intro r2 c2 hr1 hr2 hc2 hxc2 hyc2
        omega
      rw [hrest, Bool.xor_false]
      have harg : (y + offY + 0) * 64 + (x + c)
          = (y + offY) * 64 + (x + 0 + c) := by omega
      rw [harg]
      rw [hit_bits_at x (y + offY) (to_bits byte) 0 c (by rw [to_bits_length]; exact hc)
        (by omega) (by omega)]
      simp
    | succ r2 =>
      have hhead : hit_bits x (y + offY) 0
          ((y + offY + (r2 + 1)) * 64 + (x + c)) (to_bits byte) = false := by
        apply hit_bits_eq_false
        intro j hj1 hj2 hxj hyj
        omega
      rw [hhead, Bool.false_xor]
      have harg : (y + offY + (r2 + 1)) * 64 + (x + c)
          = (y + (offY + 1) + r2) * 64 + (x + c) := by omega
      rw [harg]
      rw [ih (offY + 1) r2 c (by simpa using hr) hc hx (by omega)]
      simp

theorem coll_rows_iff (x y : Nat) :
    ∀ (sprite : List Nat) (buf : Nat → Bool) (offY : Nat),
      coll_rows buf x y offY sprite = true ↔
        ∃ r, r < sprite.length ∧ ∃ c, c < 8 ∧ x + c < 64 ∧
          y + offY + r < 32 ∧
          buf ((y + offY + r) * 64 + (x + c)) = true ∧
          (to_bits (sprite.getD r 0)).getD c false = true := by
  intro sprite
  induction sprite with
  | nil => intro buf offY; simp [coll_rows]
  | cons byte rest ih =>
    intro buf offY
    rw [coll_rows, Bool.or_eq_true, ih]
    constructor
    · rintro (h | ⟨r, hr, c, hc, hxc, hyc, hbuf, hbit⟩)
      · rcases (coll_bits_iff x (y + offY) (to_bits byte) buf 0).1 h with
          ⟨c, hc, hxc, hyc, hbuf, hbit⟩
        rw [to_bits_length] at hc
        refine ⟨0, by simp, c, hc, by omega, by omega, ?_, by simpa using hbit⟩
        have harg : (y + offY + 0) * 64 + (x + c)
            = (y + offY) * 64 + (x + 0 + c) := by omega
        rw [harg]; exact hbuf
      · refine ⟨r + 1, by simpa using Nat.succ_lt_succ hr, c, hc, hxc, by omega, ?_,
          by simpa using hbit⟩
        have harg : (y + offY + (r + 1)) * 64 + (x + c)
            = (y + (offY + 1) + r) * 64 + (x + c) := by omega
        rw [harg]; exact hbuf
    · rintro ⟨r, hr, c, hc, hxc, hyc, hbuf, hbit⟩
      cases r with
      | zero =>
        left
        apply (coll_bits_iff x (y + offY) (to_bits byte) buf 0).2
        refine ⟨c, by rwa [to_bits_length], by omega, by omega, ?_, by simpa using hbit⟩
        have harg : (y + offY) * 64 + (x + 0 + c)
            = (y + offY + 0) * 64 + (x + c) := by omega
        rw [harg]; exact hbuf
      | succ r2 =>
        right
        refine ⟨r2, by simpa using hr, c, hc, hxc, by omega, ?_, by simpa using hbit⟩
        have harg : (y + (offY + 1) + r2) * 64 + (x + c)
            = (y + offY + (r2 + 1)) * 64 + (x + c) := by omega
        rw [harg]; exact hbuf

set_option maxRecDepth 4096 in
/-- Bridge from the code's bit decomposition to Nat.testBit, MSB first. -/
theorem to_bits_getD_testBit :
    ∀ b, b < 256 → ∀ c, c < 8 → (to_bits b).getD c false = b.testBit (7 - c) := by
  decide

/-! ## Fatal errors

Every Rust panic reachable from the fetch-execute cycle is modelled as one of
these error values.  The panic in the decode fall-through arm formats exactly
the four opcode nibbles (fetch_execute.rs and executor.rs:
  panic with the message invalid opcode followed by the nibbles in hex),
so invalidOpcode carries those nibbles and nothing else; the stack underflow
panic (processor.rs Stack::pop, expect on the empty Vec) carries no data. -/

inductive Err where
  | invalidOpcode (n1 n2 n3 n4 : Nat)
  | stackUnderflow
  | spUnderflow
  | spOverflow
  | memOutOfBounds
  | invalidSprite
  | keyOutOfRange
  | addOverflow
deriving DecidableEq

/-! ## Memory (src/memory.rs)

A 4096-byte array; reads and writes panic when out of bounds, modelled by
Option. -/

/-- read_byte from src/memory.rs (indexing panic becomes none). -/
def read_byte (mem : List Nat) (address : Nat) : Option Nat :=
  mem.get? address

/-- write_byte from src/memory.rs (indexing panic becomes none). -/
def write_byte (mem : List Nat) (address value : Nat) : Option (List Nat) :=
  if address < mem.length then some (mem.set address value) else none

/-- read_sprite from src/memory.rs: the slice of length bytes starting at
address (slicing panic becomes none). -/
def read_sprite (mem : List Nat) (address length : Nat) : Option (List Nat) :=
  if address + length ≤ mem.length then some ((mem.drop address).take length)
  else none

/-- sprite_address from src/memory.rs: the 16-arm match over the hex digit;
the fall-through panic becomes none. -/
def sprite_address (hex_sprite : Nat) : Option Nat :=
  match hex_sprite with
  | 0x0 => some 0
  | 0x1 => some 5
  | 0x2 => some 10
  | 0x3 => some 15
  | 0x4 => some 20
  | 0x5 => some 25
  | 0x6 => some 30
  | 0x7 => some 35
  | 0x8 => some 40
  | 0x9 => some 45
  | 0xA => some 50
  | 0xB => some 55
  | 0xC => some 60
  | 0xD => some 65
  | 0xE => some 70
  | 0xF => some 75
  | _ => none

/-! ## KeyboardState (src/keyboard.rs) -/

/-- The loop inside any_pressed, with the running enumerate index. -/
def any_pressed_from (keys : List Bool) (i : Nat) : Option Nat :=
  match keys with
  | [] => none
  | k :: rest => if k then some i else any_pressed_from rest (i + 1)

/-- any_pressed from src/keyboard.rs: the first (lowest) index whose key flag
is set. -/
def any_pressed (keys : List Bool) : Option Nat :=
  any_pressed_from keys 0

/-! ## Timers (src/timer.rs)

Wall-clock instants are nanoseconds since an arbitrary epoch; the PERIOD
constant is 16666 microseconds. -/

def PERIOD : Nat := 16666000

structure Timers where
  delay_timer : Nat
  sound_timer : Nat
  last_tick : Nat

/-- tick from src/timer.rs, with the instant it would read from the clock
passed in explicitly.  Returns the updated timers and the returned Duration
(in nanoseconds). -/
def Timers.tick (t : Timers) (now : Nat) : Timers × Nat :=
  let diff := now - t.last_tick
  if diff < PERIOD then (t, diff)
  else
    ({ delay_timer := if 0 < t.delay_timer then t.delay_timer - 1 else t.delay_timer,
       sound_timer := if 0 < t.sound_timer then t.sound_timer - 1 else t.sound_timer,
       last_tick := now }, 0)

/-! ## Control-flow effects (both interpreter/instructions.rs and
processor/executor.rs declare the identical ProgramCounterChange enum) -/

inductive ProgramCounterChange where
  | next
  | skip
  | jump (loc : Nat)
  | wait

/-! ## Decoded instructions

Both dispatchers (fetch_execute.rs OpcodeFetchExecute::execute and
executor.rs OpcodeExecutor::execute) are the same match over the four opcode
nibbles; it is factored here into a decode step returning the matched shape
with its fields, with none for the panicking fall-through arm.
combine_nibbles is the shift-and-or fold from those files. -/

inductive Instr where
  | i00E0
  | i00EE
  | i1nnn (nnn : Nat)
  | i2nnn (nnn : Nat)
  | i3xkk (x kk : Nat)
  | i4xkk (x kk : Nat)
  | i5xy0 (x y : Nat)
  | i6xkk (x kk : Nat)
  | i7xkk (x kk : Nat)
  | i8xy0 (x y : Nat)
  | i8xy1 (x y : Nat)
  | i8xy2 (x y : Nat)
  | i8xy3 (x y : Nat)
  | i8xy4 (x y : Nat)
  | i8xy5 (x y : Nat)
  | i8xy6 (x y : Nat)
  | i8xy7 (x y : Nat)
  | i8xyE (x y : Nat)
  | i9xy0 (x y : Nat)
  | iAnnn (nnn : Nat)
  | iBnnn (nnn : Nat)
  | iCxkk (x kk : Nat)
  | iDxyn (x y n : Nat)
  | iEx9E (x : Nat)
  | iExA1 (x : Nat)
  | iFx07 (x : Nat)
  | iFx0A (x : Nat)
  | iFx15 (x : Nat)
  | iFx18 (x : Nat)
  | iFx1E (x : Nat)
  | iFx29 (x : Nat)
  | iFx33 (x : Nat)
  | iFx55 (x : Nat)
  | iFx65 (x : Nat)
deriving DecidableEq

/-- combine_nibbles over three nibbles (the nnn field). -/
def combine3 (a b c : Nat) : Nat :=
  (a <<< 4 ||| b) <<< 4 ||| c

/-- combine_nibbles over two nibbles (the kk field). -/
def combine2 (a b : Nat) : Nat :=
  a <<< 4 ||| b

/-- The shared nibble-pattern dispatch of fetch_execute.rs and executor.rs. -/
def decode (n1 n2 n3 n4 : Nat) : Option Instr :=
  match n1, n2, n3, n4 with
  | 0x0, 0x0, 0xE, 0x0 => some .i00E0
  | 0x0, 0x0, 0xE, 0xE => some .i00EE
  | 0x1, a, b, c => some (.i1nnn (combine3 a b c))
  | 0x2, a, b, c => some (.i2nnn (combine3 a b c))
  | 0x3, x, a, b => some (.i3xkk x (combine2 a b))
  | 0x4, x, a, b => some (.i4xkk x (combine2 a b))
  | 0x5, x, y, 0x0 => some (.i5xy0 x y)
  | 0x6, x, a, b => some (.i6xkk x (combine2 a b))
  | 0x7, x, a, b => some (.i7xkk x (combine2 a b))
  | 0x8, x, y, 0x0 => some (.i8xy0 x y)
  | 0x8, x, y, 0x1 => some (.i8xy1 x y)
  | 0x8, x, y, 0x2 => some (.i8xy2 x y)
  | 0x8, x, y, 0x3 => some (.i8xy3 x y)
  | 0x8, x, y, 0x4 => some (.i8xy4 x y)
  | 0x8, x, y, 0x5 => some (.i8xy5 x y)
  | 0x8, x, y, 0x6 => some (.i8xy6 x y)
  | 0x8, x, y, 0x7 => some (.i8xy7 x y)
  | 0x8, x, y, 0xE => some (.i8xyE x y)
  | 0x9, x, y, 0x0 => some (.i9xy0 x y)
  | 0xA, a, b, c => some (.iAnnn (combine3 a b c))
  | 0xB, a, b, c => some (.iBnnn (combine3 a b c))
  | 0xC, x, a, b => some (.iCxkk x (combine2 a b))
  | 0xD, x, y, n => some (.iDxyn x y n)
  | 0xE, x, 0x9, 0xE => some (.iEx9E x)
  | 0xE, x, 0xA, 0x1 => some (.iExA1 x)
  | 0xF, x, 0x0, 0x7 => some (.iFx07 x)
  | 0xF, x, 0x0, 0xA => some (.iFx0A x)
  | 0xF, x, 0x1, 0x5 => some (.iFx15 x)
  | 0xF, x, 0x1, 0x8 => some (.iFx18 x)
  | 0xF, x, 0x1, 0xE => some (.iFx1E x)
  | 0xF, x, 0x2, 0x9 => some (.iFx29 x)
  | 0xF, x, 0x3, 0x3 => some (.iFx33 x)
  | 0xF, x, 0x5, 0x5 => some (.iFx55 x)
  | 0xF, x, 0x6, 0x5 => some (.iFx65 x)
  | _, _, _, _ => none

/-! ## Interpreter state (src/interpreter.rs)

The stack field is the plain Vec of return addresses; the top of the Vec
(its last element) is modelled as the head of the list. -/

structure Interpreter where
  memory : List Nat
  display_buf : Nat → Bool
  timers : Timers
  keys : List Bool
  stack : List Nat
  program_counter : Nat
  reg_i : Nat
  reg_v : List Nat
  cycle_delay : Nat
  last_cycle : Nat

/-! ### Instruction handlers (src/interpreter/instructions.rs)

Handlers that cannot panic return the new state and the control effect;
handlers with a reachable panic return them inside Except. -/

def Interpreter.instr_00E0 (s : Interpreter) : Interpreter × ProgramCounterChange :=
  ({ s with display_buf := fun _ => false }, .next)

/-- 00EE pops the Vec of return addresses; popping the empty Vec is the
fatal stack-underflow condition (the parallel Processor implementation
panics via expect on the same condition). -/
def Interpreter.instr_00EE (s : Interpreter) :
    Except Err (Interpreter × ProgramCounterChange) :=
  match s.stack with
  | [] => .error .stackUnderflow
  | pc :: rest => .ok ({ s with stack := rest }, .jump pc)

def Interpreter.instr_1nnn (s : Interpreter) (nnn : Nat) :
    Interpreter × ProgramCounterChange :=
  (s, .jump nnn)

def Interpreter.instr_2nnn (s : Interpreter) (nnn : Nat) :
    Interpreter × ProgramCounterChange :=
  ({ s with stack := (s.program_counter + 2) % 65536 :: s.stack }, .jump nnn)

def Interpreter.instr_3xkk (s : Interpreter) (x kk : Nat) :
    Interpreter × ProgramCounterChange :=
  if s.reg_v.getD x 0 = kk then (s, .skip) else (s, .next)

def Interpreter.instr_4xkk (s : Interpreter) (x kk : Nat) :
    Interpreter × ProgramCounterChange :=
  if s.reg_v.getD x 0 ≠ kk then (s, .skip) else (s, .next)

def Interpreter.instr_5xy0 (s : Interpreter) (x y : Nat) :
    Interpreter × ProgramCounterChange :=
  if s.reg_v.getD x 0 = s.reg_v.getD y 0 then (s, .skip) else (s, .next)

def Interpreter.instr_6xkk (s : Interpreter) (x kk : Nat) :
    Interpreter × ProgramCounterChange :=
  ({ s with reg_v := s.reg_v.set x kk }, .next)

def Interpreter.instr_7xkk (s : Interpreter) (x kk : Nat) :
    Interpreter × ProgramCounterChange :=
  ({ s with reg_v := s.reg_v.set x ((s.reg_v.getD x 0 + kk) % 256) }, .next)

def Interpreter.instr_8xy0 (s : Interpreter) (x y : Nat) :
    Interpreter × ProgramCounterChange :=
  ({ s with reg_v := s.reg_v.set x (s.reg_v.getD y 0) }, .next)

def Interpreter.instr_8xy1 (s : Interpreter) (x y : Nat) :
    Interpreter × ProgramCounterChange :=
  ({ s with reg_v := s.reg_v.set x (s.reg_v.getD x 0 ||| s.reg_v.getD y 0) }, .next)

def Interpreter.instr_8xy2 (s : Interpreter) (x y : Nat) :
    Interpreter × ProgramCounterChange :=
  ({ s with reg_v := s.reg_v.set x (s.reg_v.getD x 0 &&& s.reg_v.getD y 0) }, .next)

def Interpreter.instr_8xy3 (s : Interpreter) (x y : Nat) :
    Interpreter × ProgramCounterChange :=
  ({ s with reg_v := s.reg_v.set x (s.reg_v.getD x 0 ^^^ s.reg_v.getD y 0) }, .next)

def Interpreter.instr_8xy4 (s : Interpreter) (x y : Nat) :
    Interpreter × ProgramCounterChange :=
  let v_y := s.reg_v.getD y 0
  let v_x := s.reg_v.getD x 0
  let sum := (v_x + v_y) % 256
  let overflowed := 256 ≤ v_x + v_y
  ({ s with reg_v := (s.reg_v.set x sum).set 0xF (if overflowed then 1 else 0) }, .next)

def Interpreter.instr_8xy5 (s : Interpreter) (x y : Nat) :
    Interpreter × ProgramCounterChange :=
  let v_y := s.reg_v.getD y 0
  let v_x := s.reg_v.getD x 0
  let diff := (v_x + 256 - v_y) % 256
  let overflowed := v_x < v_y
  ({ s with reg_v := (s.reg_v.set x diff).set 0xF (if overflowed then 0 else 1) }, .next)

def Interpreter.instr_8xy6 (s : Interpreter) (x y : Nat) :
    Interpreter × ProgramCounterChange :=
  let v_y := s.reg_v.getD y 0
  let lsb := v_y &&& 0x1
  ({ s with reg_v := (s.reg_v.set x (v_y >>> 1)).set 0xF lsb }, .next)

def Interpreter.instr_8xy7 (s : Interpreter) (x y : Nat) :
    Interpreter × ProgramCounterChange :=
  let v_y := s.reg_v.getD y 0
  let v_x := s.reg_v.getD x 0
  let diff := (v_y + 256 - v_x) % 256
  let overflowed := v_y < v_x
  ({ s with reg_v := (s.reg_v.set x diff).set 0xF (if overflowed then 0 else 1) }, .next)

def Interpreter.instr_8xyE (s : Interpreter) (x y : Nat) :
    Interpreter × ProgramCounterChange :=
  let v_y := s.reg_v.getD y 0
  let msb := v_y >>> 7
  ({ s with reg_v := (s.reg_v.set x ((v_y <<< 1) % 256)).set 0xF msb }, .next)

def Interpreter.instr_9xy0 (s : Interpreter) (x y : Nat) :
    Interpreter × ProgramCounterChange :=
  if s.reg_v.getD x 0 ≠ s.reg_v.getD y 0 then (s, .skip) else (s, .next)

def Interpreter.instr_Annn (s : Interpreter) (nnn : Nat) :
    Interpreter × ProgramCounterChange :=
  ({ s with reg_i := nnn }, .next)

def Interpreter.instr_Bnnn (s : Interpreter) (nnn : Nat) :
    Interpreter × ProgramCounterChange :=
  (s, .jump (nnn + s.reg_v.getD 0x0 0))

def Interpreter.instr_Cxkk (s : Interpreter) (x kk rand_byte : Nat) :
    Interpreter × ProgramCounterChange :=
  ({ s with reg_v := s.reg_v.set x (rand_byte &&& kk) }, .next)

def Interpreter.instr_Dxyn (s : Interpreter) (x y n : Nat) :
    Except Err (Interpreter × ProgramCounterChange) :=
  let x_pos := s.reg_v.getD x 0
  let y_pos := s.reg_v.getD y 0
  if 0x3F < x_pos ∨ 0x1F < y_pos then
    .ok ({ s with reg_v := s.reg_v.set 0xF 0 }, .next)
  else
    match read_sprite s.memory s.reg_i n with
    | none => .error .memOutOfBounds
    | some sprite =>
      let r := write_sprite s.display_buf sprite x_pos y_pos
      .ok ({ s with display_buf := r.1,
                    reg_v := s.reg_v.set 0xF (if r.2 then 1 else 0) }, .next)

def Interpreter.instr_Ex9E (s : Interpreter) (x : Nat) :
    Except Err (Interpreter × ProgramCounterChange) :=
  match s.keys.get? (s.reg_v.getD x 0) with
  | none => .error .keyOutOfRange
  | some pressed => if pressed then .ok (s, .skip) else .ok (s, .next)

def Interpreter.instr_ExA1 (s : Interpreter) (x : Nat) :
    Except Err (Interpreter × ProgramCounterChange) :=
  match s.keys.get? (s.reg_v.getD x 0) with
  | none => .error .keyOutOfRange
  | some pressed => if pressed then .ok (s, .next) else .ok (s, .skip)

def Interpreter.instr_Fx07 (s : Interpreter) (x : Nat) :
    Interpreter × ProgramCounterChange :=
  ({ s with reg_v := s.reg_v.set x s.timers.delay_timer }, .next)

def Interpreter.instr_Fx0A (s : Interpreter) (x : Nat) :
    Interpreter × ProgramCounterChange :=
  match any_pressed s.keys with
  | some key => ({ s with reg_v := s.reg_v.set x key }, .next)
  | none => (s, .wait)

def Interpreter.instr_Fx15 (s : Interpreter) (x : Nat) :
    Interpreter × ProgramCounterChange :=
  ({ s with timers := { s.timers with delay_timer := s.reg_v.getD x 0 } }, .next)

def Interpreter.instr_Fx18 (s : Interpreter) (x : Nat) :
    Interpreter × ProgramCounterChange :=
  ({ s with timers := { s.timers with sound_timer := s.reg_v.getD x 0 } }, .next)

/-- Fx1E uses the unchecked u16 += in the source, which panics on overflow
under the Rust debug profile (release builds wrap); the overflow is modelled
as a fatal error. -/
def Interpreter.instr_Fx1E (s : Interpreter) (x : Nat) :
    Except Err (Interpreter × ProgramCounterChange) :=
  if 65536 ≤ s.reg_i + s.reg_v.getD x 0 then .error .addOverflow
  else .ok ({ s with reg_i := s.reg_i + s.reg_v.getD x 0 }, .next)

def Interpreter.instr_Fx29 (s : Interpreter) (x : Nat) :
    Except Err (Interpreter × ProgramCounterChange) :=
  match sprite_address (s.reg_v.getD x 0) with
  | none => .error .invalidSprite
  | some addr => .ok ({ s with reg_i := addr }, .next)

def Interpreter.instr_Fx33 (s : Interpreter) (x : Nat) :
    Except Err (Interpreter × ProgramCounterChange) :=
  let value := s.reg_v.getD x 0
  let i := s.reg_i
  match write_byte s.memory i (value / 100) with
  | none => .error .memOutOfBounds
  | some m1 =>
    match write_byte m1 (i + 1) (value % 100 / 10) with
    | none => .error .memOutOfBounds
    | some m2 =>
      match write_byte m2 (i + 2) (value % 10) with
      | none => .error .memOutOfBounds
      | some m3 => .ok ({ s with memory := m3 }, .next)

def Interpreter.instr_Fx55 (s : Interpreter) (x : Nat) :
    Except Err (Interpreter × ProgramCounterChange) :=
  match (List.range (x + 1)).foldlM
      (fun m off => write_byte m (s.reg_i + off) (s.reg_v.getD off 0)) s.memory with
  | none => .error .memOutOfBounds
  | some m2 => .ok ({ s with memory := m2 }, .next)

def Interpreter.instr_Fx65 (s : Interpreter) (x : Nat) :
    Except Err (Interpreter × ProgramCounterChange) :=
  match (List.range (x + 1)).foldlM
      (fun v off =>
        match read_byte s.memory (s.reg_i + off) with
        | none => none
        | some b => some (v.set off b)) s.reg_v with
  | none => .error .memOutOfBounds
  | some v2 => .ok ({ s with reg_v := v2 }, .next)

/-- Dispatch from a decoded instruction to its handler
(fetch_execute.rs match arms). -/
def Interpreter.run_instr (s : Interpreter) (rand_byte : Nat) :
    Instr → Except Err (Interpreter × ProgramCounterChange)
  | .i00E0 => .ok s.instr_00E0
  | .i00EE => s.instr_00EE
  | .i1nnn nnn => .ok (s.instr_1nnn nnn)
  | .i2nnn nnn => .ok (s.instr_2nnn nnn)
  | .i3xkk x kk => .ok (s.instr_3xkk x kk)
  | .i4xkk x kk => .ok (s.instr_4xkk x kk)
  | .i5xy0 x y => .ok (s.instr_5xy0 x y)
  | .i6xkk x kk => .ok (s.instr_6xkk x kk)
  | .i7xkk x kk => .ok (s.instr_7xkk x kk)
  | .i8xy0 x y => .ok (s.instr_8xy0 x y)
  | .i8xy1 x y => .ok (s.instr_8xy1 x y)
  | .i8xy2 x y => .ok (s.instr_8xy2 x y)
  | .i8xy3 x y => .ok (s.instr_8xy3 x y)
  | .i8xy4 x y => .ok (s.instr_8xy4 x y)
  | .i8xy5 x y => .ok (s.instr_8xy5 x y)
  | .i8xy6 x y => .ok (s.instr_8xy6 x y)
  | .i8xy7 x y => .ok (s.instr_8xy7 x y)
  | .i8xyE x y => .ok (s.instr_8xyE x y)
  | .i9xy0 x y => .ok (s.instr_9xy0 x y)
  | .iAnnn nnn => .ok (s.instr_Annn nnn)
  | .iBnnn nnn => .ok (s.instr_Bnnn nnn)
  | .iCxkk x kk => .ok (s.instr_Cxkk x kk rand_byte)
  | .iDxyn x y n => s.instr_Dxyn x y n
  | .iEx9E x => s.instr_Ex9E x
  | .iExA1 x => s.instr_ExA1 x
  | .iFx07 x => .ok (s.instr_Fx07 x)
  | .iFx0A x => .ok (s.instr_Fx0A x)
  | .iFx15 x => .ok (s.instr_Fx15 x)
  | .iFx18 x => .ok (s.instr_Fx18 x)
  | .iFx1E x => s.instr_Fx1E x
  | .iFx29 x => s.instr_Fx29 x
  | .iFx33 x => s.instr_Fx33 x
  | .iFx55 x => s.instr_Fx55 x
  | .iFx65 x => s.instr_Fx65 x

/-- The program-counter application at the end of
OpcodeFetchExecute::execute. -/
def Interpreter.apply_pc_change (s : Interpreter) :
    ProgramCounterChange → Interpreter
  | .next => { s with program_counter := s.program_counter + 2 }
  | .skip => { s with program_counter := s.program_counter + 4 }
  | .jump loc => { s with program_counter := loc }
  | .wait => s

/-- OpcodeFetchExecute::execute for an already-fetched opcode given by its
four nibbles: decode, dispatch, apply the control effect; the unmatched
pattern panics with a message naming the four opcode nibbles. -/
def Interpreter.execute (s : Interpreter) (rand_byte n1 n2 n3 n4 : Nat) :
    Except Err Interpreter :=
  match decode n1 n2 n3 n4 with
  | none => .error (.invalidOpcode n1 n2 n3 n4)
  | some instr =>
    match s.run_instr rand_byte instr with
    | .error e => .error e
    | .ok (s2, pcc) => .ok (s2.apply_pc_change pcc)

/-- OpcodeFetchExecute::fetch followed by execute: read the two opcode bytes
at the program counter and split them into nibbles. -/
def Interpreter.fetch_execute (s : Interpreter) (rand_byte : Nat) :
    Except Err Interpreter :=
  match read_byte s.memory s.program_counter,
        read_byte s.memory (s.program_counter + 1) with
  | some hi, some lo =>
    s.execute rand_byte (hi >>> 4) (hi &&& 0x0F) (lo >>> 4) (lo &&& 0x0F)
  | _, _ => .error .memOutOfBounds

/-- Interpreter::run_cycle from src/interpreter.rs, with the Instant::now
value passed in.  The second component counts how many times Timers::tick was
invoked during the call.  Note the tick happens before the rate-limit branch,
so it is counted in every case; the sleep in the rate-limited branch does not
change VM state. -/
def Interpreter.run_cycle (s : Interpreter) (now rand_byte : Nat) :
    Except Err Interpreter × Nat :=
  let diff := now - s.last_cycle
  let tick_result := s.timers.tick now
  let s1 := { s with timers := tick_result.1 }
  if s1.cycle_delay < diff then
    (Interpreter.fetch_execute { s1 with last_cycle := now } rand_byte, 1)
  else
    (.ok s1, 1)

/-- Iterated execution of one fixed opcode (repeated steps while the fetched
opcode stays the same). -/
def Interpreter.execute_iter (rand_byte n1 n2 n3 n4 : Nat) :
    Nat → Interpreter → Except Err Interpreter
  | 0, s => .ok s
  | Nat.succ k, s =>
    match s.execute rand_byte n1 n2 n3 n4 with
    | .error e => .error e
    | .ok s2 => Interpreter.execute_iter rand_byte n1 n2 n3 n4 k s2

/-! ## Processor state (src/processor.rs)

The second, parallel implementation of the core.  Registers and the call
stack are their own structs; the stack is a Vec plus a u8 stack pointer.
The u8 increment and decrement of the stack pointer are unchecked in the
source (they panic on u8 overflow and underflow under the debug profile),
modelled as error values; the Vec itself is unbounded. -/

structure Registers where
  i : Nat
  v : List Nat

structure Stack where
  inner : List Nat
  stack_pointer : Nat

/-- Stack::push from src/processor.rs: the Vec push never fails, the u8
stack-pointer increment overflows (debug panic) at 255. -/
def Stack.push (st : Stack) (value : Nat) : Except Err Stack :=
  if st.stack_pointer = 255 then .error .spOverflow
  else .ok { inner := value :: st.inner, stack_pointer := st.stack_pointer + 1 }

/-- Stack::pop from src/processor.rs: the expect on the empty Vec panics, then
the u8 stack-pointer decrement underflows (debug panic) at 0. -/
def Stack.pop (st : Stack) : Except Err (Nat × Stack) :=
  match st.inner with
  | [] => .error .stackUnderflow
  | top :: rest =>
    if st.stack_pointer = 0 then .error .spUnderflow
    else .ok (top, { inner := rest, stack_pointer := st.stack_pointer - 1 })

structure Processor where
  memory : List Nat
  registers : Registers
  stack : Stack
  display_buf : Nat → Bool
  timers : Timers
  keys : List Bool
  program_counter : Nat
  cycle_delay : Nat
  last_cycle : Nat

/-! ### Instruction handlers

These embed the arms of OpcodeExecutor::execute (src/processor/executor.rs),
whose bodies coincide with the methods of src/processor/instructions.rs; the
handler names follow the latter. -/

def Processor.instr_00E0 (p : Processor) : Processor × ProgramCounterChange :=
  ({ p with display_buf := fun _ => false }, .next)

def Processor.instr_00EE (p : Processor) :
    Except Err (Processor × ProgramCounterChange) :=
  match p.stack.pop with
  | .error e => .error e
  | .ok (pc, st) => .ok ({ p with stack := st }, .jump pc)

def Processor.instr_1nnn (p : Processor) (nnn : Nat) :
    Processor × ProgramCounterChange :=
  (p, .jump nnn)

def Processor.instr_2nnn (p : Processor) (nnn : Nat) :
    Except Err (Processor × ProgramCounterChange) :=
  match p.stack.push ((p.program_counter + 2) % 65536) with
  | .error e => .error e
  | .ok st => .ok ({ p with stack := st }, .jump nnn)

def Processor.instr_3xkk (p : Processor) (x kk : Nat) :
    Processor × ProgramCounterChange :=
  if p.registers.v.getD x 0 = kk then (p, .skip) else (p, .next)

def Processor.instr_4xkk (p : Processor) (x kk : Nat) :
    Processor × ProgramCounterChange :=
  if p.registers.v.getD x 0 ≠ kk then (p, .skip) else (p, .next)

def Processor.instr_5xy0 (p : Processor) (x y : Nat) :
    Processor × ProgramCounterChange :=
  if p.registers.v.getD x 0 = p.registers.v.getD y 0 then (p, .skip) else (p, .next)

def Processor.instr_6xkk (p : Processor) (x kk : Nat) :
    Processor × ProgramCounterChange :=
  ({ p with registers := { p.registers with v := p.registers.v.set x kk } }, .next)

def Processor.instr_7xkk (p : Processor) (x kk : Nat) :
    Processor × ProgramCounterChange :=
  ({ p with registers :=
      { p.registers with v := p.registers.v.set x ((p.registers.v.getD x 0 + kk) % 256) } },
   .next)

def Processor.instr_8xy0 (p : Processor) (x y : Nat) :
    Processor × ProgramCounterChange :=
  ({ p with registers :=
      { p.registers with v := p.registers.v.set x (p.registers.v.getD y 0) } }, .next)

def Processor.instr_8xy1 (p : Processor) (x y : Nat) :
    Processor × ProgramCounterChange :=
  ({ p with registers :=
      { p.registers with
        v := p.registers.v.set x (p.registers.v.getD x 0 ||| p.registers.v.getD y 0) } },
   .next)

def Processor.instr_8xy2 (p : Processor) (x y : Nat) :
    Processor × ProgramCounterChange :=
  ({ p with registers :=
      { p.registers with
        v := p.registers.v.set x (p.registers.v.getD x 0 &&& p.registers.v.getD y 0) } },
   .next)

def Processor.instr_8xy3 (p : Processor) (x y : Nat) :
    Processor × ProgramCounterChange :=
  ({ p with registers :=
      { p.registers with
        v := p.registers.v.set x (p.registers.v.getD x 0 ^^^ p.registers.v.getD y 0) } },
   .next)

def Processor.instr_8xy4 (p : Processor) (x y : Nat) :
    Processor × ProgramCounterChange :=
  let v_y := p.registers.v.getD y 0
  let v_x := p.registers.v.getD x 0
  let sum := (v_x + v_y) % 256
  let overflowed := 256 ≤ v_x + v_y
  ({ p with registers :=
      { p.registers with
        v := (p.registers.v.set x sum).set 0xF (if overflowed then 1 else 0) } },
   .next)

def Processor.instr_8xy5 (p : Processor) (x y : Nat) :
    Processor × ProgramCounterChange :=
  let v_y := p.registers.v.getD y 0
  let v_x := p.registers.v.getD x 0
  let diff := (v_x + 256 - v_y) % 256
  let overflowed := v_x < v_y
  ({ p with registers :=
      { p.registers with
        v := (p.registers.v.set x diff).set 0xF (if overflowed then 0 else 1) } },
   .next)

def Processor.instr_8xy6 (p : Processor) (x y : Nat) :
    Processor × ProgramCounterChange :=
  let v_y := p.registers.v.getD y 0
  let lsb := v_y &&& 0x1
  ({ p with registers :=
      { p.registers with v := (p.registers.v.set x (v_y >>> 1)).set 0xF lsb } },
   .next)

def Processor.instr_8xy7 (p : Processor) (x y : Nat) :
    Processor × ProgramCounterChange :=
  let v_y := p.registers.v.getD y 0
  let v_x := p.registers.v.getD x 0
  let diff := (v_y + 256 - v_x) % 256
  let overflowed := v_y < v_x
  ({ p with registers :=
      { p.registers with
        v := (p.registers.v.set x diff).set 0xF (if overflowed then 0 else 1) } },
   .next)

def Processor.instr_8xyE (p : Processor) (x y : Nat) :
    Processor × ProgramCounterChange :=
  let v_y := p.registers.v.getD y 0
  let msb := v_y >>> 7
  ({ p with registers :=
      { p.registers with v := (p.registers.v.set x ((v_y <<< 1) % 256)).set 0xF msb } },
   .next)

def Processor.instr_9xy0 (p : Processor) (x y : Nat) :
    Processor × ProgramCounterChange :=
  if p.registers.v.getD x 0 ≠ p.registers.v.getD y 0 then (p, .skip) else (p, .next)

def Processor.instr_Annn (p : Processor) (nnn : Nat) :
    Processor × ProgramCounterChange :=
  ({ p with registers := { p.registers with i := nnn } }, .next)

def Processor.instr_Bnnn (p : Processor) (nnn : Nat) :
    Processor × ProgramCounterChange :=
  (p, .jump (nnn + p.registers.v.getD 0x0 0))

def Processor.instr_Cxkk (p : Processor) (x kk rand_byte : Nat) :
    Processor × ProgramCounterChange :=
  ({ p with registers := { p.registers with v := p.registers.v.set x (rand_byte &&& kk) } },
   .next)

/-- Dxyn on the Processor side has no bounds short-circuit: it always reads
memory at I..I+n and relies on write_sprite clipping. -/
def Processor.instr_Dxyn (p : Processor) (x y n : Nat) :
    Except Err (Processor × ProgramCounterChange) :=
  let x_pos := p.registers.v.getD x 0
  let y_pos := p.registers.v.getD y 0
  match read_sprite p.memory p.registers.i n with
  | none => .error .memOutOfBounds
  | some sprite =>
    let r := write_sprite p.display_buf sprite x_pos y_pos
    .ok ({ p with display_buf := r.1,
                  registers :=
                    { p.registers with
                      v := p.registers.v.set 0xF (if r.2 then 1 else 0) } }, .next)

def Processor.instr_Ex9E (p : Processor) (x : Nat) :
    Except Err (Processor × ProgramCounterChange) :=
  match p.keys.get? (p.registers.v.getD x 0) with
  | none => .error .keyOutOfRange
  | some pressed => if pressed then .ok (p, .skip) else .ok (p, .next)

def Processor.instr_ExA1 (p : Processor) (x : Nat) :
    Except Err (Processor × ProgramCounterChange) :=
  match p.keys.get? (p.registers.v.getD x 0) with
  | none => .error .keyOutOfRange
  | some pressed => if pressed then .ok (p, .next) else .ok (p, .skip)

def Processor.instr_Fx07 (p : Processor) (x : Nat) :
    Processor × ProgramCounterChange :=
  ({ p with registers := { p.registers with v := p.registers.v.set x p.timers.delay_timer } },
   .next)

def Processor.instr_Fx0A (p : Processor) (x : Nat) :
    Processor × ProgramCounterChange :=
  match any_pressed p.keys with
  | some key => ({ p with registers := { p.registers with v := p.registers.v.set x key } },
                 .next)
  | none => (p, .wait)

def Processor.instr_Fx15 (p : Processor) (x : Nat) :
    Processor × ProgramCounterChange :=
  ({ p with timers := { p.timers with delay_timer := p.registers.v.getD x 0 } }, .next)

def Processor.instr_Fx18 (p : Processor) (x : Nat) :
    Processor × ProgramCounterChange :=
  ({ p with timers := { p.timers with sound_timer := p.registers.v.getD x 0 } }, .next)

/-- Same unchecked u16 += as the Interpreter side. -/
def Processor.instr_Fx1E (p : Processor) (x : Nat) :
    Except Err (Processor × ProgramCounterChange) :=
  if 65536 ≤ p.registers.i + p.registers.v.getD x 0 then .error .addOverflow
  else .ok ({ p with registers :=
      { p.registers with i := p.registers.i + p.registers.v.getD x 0 } }, .next)

def Processor.instr_Fx29 (p : Processor) (x : Nat) :
    Except Err (Processor × ProgramCounterChange) :=
  match sprite_address (p.registers.v.getD x 0) with
  | none => .error .invalidSprite
  | some addr => .ok ({ p with registers := { p.registers with i := addr } }, .next)

def Processor.instr_Fx33 (p : Processor) (x : Nat) :
    Except Err (Processor × ProgramCounterChange) :=
  let value := p.registers.v.getD x 0
  let i := p.registers.i
  match write_byte p.memory i (value / 100) with
  | none => .error .memOutOfBounds
  | some m1 =>
    match write_byte m1 (i + 1) (value % 100 / 10) with
    | none => .error .memOutOfBounds
    | some m2 =>
      match write_byte m2 (i + 2) (value % 10) with
      | none => .error .memOutOfBounds
      | some m3 => .ok ({ p with memory := m3 }, .next)

def Processor.instr_Fx55 (p : Processor) (x : Nat) :
    Except Err (Processor × ProgramCounterChange) :=
  match (List.range (x + 1)).foldlM
      (fun m off => write_byte m (p.registers.i + off) (p.registers.v.getD off 0))
      p.memory with
  | none => .error .memOutOfBounds
  | some m2 => .ok ({ p with memory := m2 }, .next)

def Processor.instr_Fx65 (p : Processor) (x : Nat) :
    Except Err (Processor × ProgramCounterChange) :=
  match (List.range (x + 1)).foldlM
      (fun v off =>
        match read_byte p.memory (p.registers.i + off) with
        | none => none
        | some b => some (v.set off b)) p.registers.v with
  | none => .error .memOutOfBounds
  | some v2 => .ok ({ p with registers := { p.registers with v := v2 } }, .next)

/-- Dispatch from the decoded instruction to the executor arm
(src/processor/executor.rs match arms). -/
def Processor.run_instr (p : Processor) (rand_byte : Nat) :
    Instr → Except Err (Processor × ProgramCounterChange)
  | .i00E0 => .ok p.instr_00E0
  | .i00EE => p.instr_00EE
  | .i1nnn nnn => .ok (p.instr_1nnn nnn)
  | .i2nnn nnn => p.instr_2nnn nnn
  | .i3xkk x kk => .ok (p.instr_3xkk x kk)
  | .i4xkk x kk => .ok (p.instr_4xkk x kk)
  | .i5xy0 x y => .ok (p.instr_5xy0 x y)
  | .i6xkk x kk => .ok (p.instr_6xkk x kk)
  | .i7xkk x kk => .ok (p.instr_7xkk x kk)
  | .i8xy0 x y => .ok (p.instr_8xy0 x y)
  | .i8xy1 x y => .ok (p.instr_8xy1 x y)
  | .i8xy2 x y => .ok (p.instr_8xy2 x y)
  | .i8xy3 x y => .ok (p.instr_8xy3 x y)
  | .i8xy4 x y => .ok (p.instr_8xy4 x y)
  | .i8xy5 x y => .ok (p.instr_8xy5 x y)
  | .i8xy6 x y => .ok (p.instr_8xy6 x y)
  | .i8xy7 x y => .ok (p.instr_8xy7 x y)
  | .i8xyE x y => .ok (p.instr_8xyE x y)
  | .i9xy0 x y => .ok (p.instr_9xy0 x y)
  | .iAnnn nnn => .ok (p.instr_Annn nnn)
  | .iBnnn nnn => .ok (p.instr_Bnnn nnn)
  | .iCxkk x kk => .ok (p.instr_Cxkk x kk rand_byte)
  | .iDxyn x y n => p.instr_Dxyn x y n
  | .iEx9E x => p.instr_Ex9E x
  | .iExA1 x => p.instr_ExA1 x
  | .iFx07 x => .ok (p.instr_Fx07 x)
  | .iFx0A x => .ok (p.instr_Fx0A x)
  | .iFx15 x => .ok (p.instr_Fx15 x)
  | .iFx18 x => .ok (p.instr_Fx18 x)
  | .iFx1E x => p.instr_Fx1E x
  | .iFx29 x => p.instr_Fx29 x
  | .iFx33 x => p.instr_Fx33 x
  | .iFx55 x => p.instr_Fx55 x
  | .iFx65 x => p.instr_Fx65 x

/-- The pc-change application at the end of Processor::run_cycle. -/
def Processor.apply_pc_change (p : Processor) :
    ProgramCounterChange → Processor
  | .next => { p with program_counter := p.program_counter + 2 }
  | .skip => { p with program_counter := p.program_counter + 4 }
  | .jump loc => { p with program_counter := loc }
  | .wait => p

/-- OpcodeExecutor::execute plus the pc-change application, for an opcode
given by its four nibbles. -/
def Processor.execute (p : Processor) (rand_byte n1 n2 n3 n4 : Nat) :
    Except Err Processor :=
  match decode n1 n2 n3 n4 with
  | none => .error (.invalidOpcode n1 n2 n3 n4)
  | some instr =>
    match p.run_instr rand_byte instr with
    | .error e => .error e
    | .ok (p2, pcc) => .ok (p2.apply_pc_change pcc)

/-- Opcode fetch (processor.rs run_cycle lines reading the two bytes at pc)
followed by execute. -/
def Processor.fetch_execute (p : Processor) (rand_byte : Nat) :
    Except Err Processor :=
  match read_byte p.memory p.program_counter,
        read_byte p.memory (p.program_counter + 1) with
  | some hi, some lo =>
    p.execute rand_byte (hi >>> 4) (hi &&& 0x0F) (lo >>> 4) (lo &&& 0x0F)
  | _, _ => .error .memOutOfBounds

/-- Processor::run_cycle from src/processor.rs, with the Instant::now value
passed in.  The rate-limited early return happens before any fetch and before
the timer tick; the tick runs only at the very end of a successfully executed
step.  The second component counts Timers::tick invocations. -/
def Processor.run_cycle (p : Processor) (now rand_byte : Nat) :
    Except Err Processor × Nat :=
  if now - p.last_cycle < p.cycle_delay then (.ok p, 0)
  else
    match Processor.fetch_execute { p with last_cycle := now } rand_byte with
    | .error e => (.error e, 0)
    | .ok p2 => (.ok { p2 with timers := (p2.timers.tick now).1 }, 1)

/-! ## Correspondence between the two implementations -/

/-- The evident mapping from a Processor state to an Interpreter state: same
memory, display, timers, keys, registers and program counter; the stack Vec
is kept and the extra u8 stack pointer is dropped. -/
def procToInterp (p : Processor) : Interpreter :=
  { memory := p.memory
    display_buf := p.display_buf
    timers := p.timers
    keys := p.keys
    stack := p.stack.inner
    program_counter := p.program_counter
    reg_i := p.registers.i
    reg_v := p.registers.v
    cycle_delay := p.cycle_delay
    last_cycle := p.last_cycle }

/-- The region where the two Dxyn implementations genuinely diverge: the
Interpreter short-circuits (so never reads memory) exactly when Vx is more
than 0x3F or Vy is more than 0x1F, while the Processor still reads
memory at I..I+n, which faults when that range leaves memory. -/
def dxyn_diverges (p : Processor) : Option Instr → Bool
  | some (.iDxyn x y n) =>
    (decide (0x3F < p.registers.v.getD x 0) || decide (0x1F < p.registers.v.getD y 0))
      && decide (p.memory.length < p.registers.i + n)
  | _ => false

/-! ## Supporting lemmas -/

theorem any_pressed_from_spec :
    ∀ (keys : List Bool) (base key : Nat),
      any_pressed_from keys base = some key →
      base ≤ key ∧ key - base < keys.length ∧
        keys.getD (key - base) false = true ∧
        ∀ j, base ≤ j → j < key → keys.getD (j - base) false = false := by
  intro keys
  induction keys with
  | nil => intro base key h; simp [any_pressed_from] at h
  | cons k rest ih =>
    intro base key h
    rw [any_pressed_from] at h
    cases k with
    | true =>
      simp only [if_pos, Option.some.injEq] at h
      subst h
      refine ⟨Nat.le_refl _, by simp, by simp, ?_⟩
      intro j hj1 hj2
      omega
    | false =>
      simp only [Bool.false_eq_true, if_false] at h
      obtain ⟨h1, h2, h3, h4⟩ := ih (base + 1) key h
      refine ⟨by omega, by simp only [List.length_cons]; omega, ?_, ?_⟩
      · have heq : key - base = (key - (base + 1)) + 1 := by omega
        rw [heq, List.getD_cons_succ]
        exact h3
      · intro j hj1 hj2
        by_cases hjb : j = base
        · subst hjb
          simp [Nat.sub_self]
        · have heq : j - base = (j - (base + 1)) + 1 := by omega
          rw [heq, List.getD_cons_succ]
          exact h4 j (by omega) hj2

/-- any_pressed returns the lowest-indexed pressed key. -/
theorem any_pressed_lowest (keys : List Bool) (key : Nat)
    (h : any_pressed keys = some key) :
    key < keys.length ∧ keys.getD key false = true ∧
      ∀ j, j < key → keys.getD j false = false := by
  obtain ⟨h1, h2, h3, h4⟩ := any_pressed_from_spec keys 0 key h
  refine ⟨by omega, by simpa using h3, ?_⟩
  intro j hj
  have := h4 j (Nat.zero_le j) hj
  simpa using this

theorem write_bits_clip (x y : Nat) (hxy : 64 ≤ x ∨ 32 ≤ y) :
    ∀ (bits : List Bool) (buf : Nat → Bool) (col : Bool) (offX : Nat),
      write_bits buf col x y offX bits = (buf, col) := by
  intro bits
  induction bits with
  | nil => intro buf col offX; rw [write_bits]
  | cons bit rest ih =>
    intro buf col offX
    rw [write_bits]
    have hsp : set_pos buf (x + offX) y bit = (buf, false) := by
      rw [set_pos, if_pos (by omega)]
    rw [hsp]
    simpa using ih buf col (offX + 1)

theorem write_rows_clip (x y : Nat) (hxy : 64 ≤ x ∨ 32 ≤ y) :
    ∀ (sprite : List Nat) (buf : Nat → Bool) (col : Bool) (offY : Nat),
      write_rows buf col x y offY sprite = (buf, col) := by
  intro sprite
  induction sprite with
  | nil => intro buf col offY; rw [write_rows]
  | cons byte rest ih =>
    intro buf col offY
    rw [write_rows]
    have hrow : write_bits buf col x (y + offY) 0 (to_bits byte) = (buf, col) :=
      write_bits_clip x (y + offY) (by omega) (to_bits byte) buf col 0
    rw [hrow]
    exact ih buf col (offY + 1)

/-- A draw whose origin already lies off the grid touches nothing and reports
no collision. -/
theorem write_sprite_clip (buf : Nat → Bool) (sprite : List Nat) (x y : Nat)
    (hxy : 64 ≤ x ∨ 32 ≤ y) :
    write_sprite buf sprite x y = (buf, false) :=
  write_rows_clip x y hxy sprite buf false 0

/-! ## Concrete states used by witnesses and counterexamples -/

/-- The all-off display buffer (the state clear() produces). -/
def cleared : Nat → Bool := fun _ => false

/-- A freshly constructed Interpreter state over zeroed memory (the font and
rom contents are irrelevant to the facts proved on it). -/
def interp0 : Interpreter :=
  { memory := List.replicate 4096 0
    display_buf := cleared
    timers := { delay_timer := 0, sound_timer := 0, last_tick := 0 }
    keys := List.replicate 16 false
    stack := []
    program_counter := 0x200
    reg_i := 0
    reg_v := List.replicate 16 0
    cycle_delay := 2000000
    last_cycle := 0 }

/-- A matching blank Processor state. -/
def proc0 : Processor :=
  { memory := List.replicate 4096 0
    registers := { i := 0, v := List.replicate 16 0 }
    stack := { inner := [], stack_pointer := 0 }
    display_buf := cleared
    timers := { delay_timer := 0, sound_timer := 0, last_tick := 0 }
    keys := List.replicate 16 false
    program_counter := 0x200
    cycle_delay := 1000000
    last_cycle := 0 }

/-! ## C5 -/

/-- The state for the C5 counterexample: VF = 10 (the minuend, since x = F)
and V0 = 3 (the subtrahend). -/
def cexInterp5 : Interpreter :=
  { interp0 with reg_v := ((List.replicate 16 0).set 15 10).set 0 3 }

/-- C5 counterexample: with x = 0xF and y = 0 (so Vx is VF itself, with
Vx_old = 10 and Vy = 3), the claim predicts Vx = 7 after the step, but the
flag write is the final register write, so VF ends as the flag value 1, not
the difference 7. -/
theorem C5_counterexample :
    (cexInterp5.instr_8xy5 0xF 0x0).1.reg_v.getD 0xF 0 = 1 ∧
    ¬ (cexInterp5.instr_8xy5 0xF 0x0).1.reg_v.getD 0xF 0 = 7 := by
  exact ⟨rfl, by decide⟩

/-- C5 (amended): for x other than 0xF, opcode 8xy5 stores
(Vx_old - Vy) mod 256 into Vx and writes the borrow flag into VF:
VF = 1 when Vx_old is at least Vy and 0 otherwise; when x = 0xF the flag
write is the final register write and wins.  Both implementations agree. -/
theorem C5_amended (s : Interpreter) (p : Processor) (x y : Nat)
    (hx : x < 16) (hxF : x ≠ 0xF)
    (hlen : s.reg_v.length = 16) (hplen : p.registers.v.length = 16)
    (hvx : s.reg_v.getD x 0 < 256) (hvy : s.reg_v.getD y 0 < 256)
    (hpvx : p.registers.v.getD x 0 < 256) (hpvy : p.registers.v.getD y 0 < 256) :
    ((s.instr_8xy5 x y).1.reg_v.getD x 0 : Int) =
      ((s.reg_v.getD x 0 : Int) - (s.reg_v.getD y 0 : Int)) % 256 ∧
    (s.instr_8xy5 x y).1.reg_v.getD 0xF 0 =
      (if s.reg_v.getD y 0 ≤ s.reg_v.getD x 0 then 1 else 0) ∧
    (s.instr_8xy5 x y).2 = ProgramCounterChange.next ∧
    ((p.instr_8xy5 x y).1.registers.v.getD x 0 : Int) =
      ((p.registers.v.getD x 0 : Int) - (p.registers.v.getD y 0 : Int)) % 256 ∧
    (p.instr_8xy5 x y).1.registers.v.getD 0xF 0 =
      (if p.registers.v.getD y 0 ≤ p.registers.v.getD x 0 then 1 else 0) ∧
    (p.instr_8xy5 x y).2 = ProgramCounterChange.next := by
  have hval : (s.instr_8xy5 x y).1.reg_v.getD x 0
      = (s.reg_v.getD x 0 + 256 - s.reg_v.getD y 0) % 256 := by
    dsimp only [Interpreter.instr_8xy5]
    rw [getD_set_other _ 15 x _ _ (fun hc => hxF hc.symm)]
    exact getD_set_self _ x _ _ (by rw [hlen]; omega)
  have hflag : (s.instr_8xy5 x y).1.reg_v.getD 0xF 0
      = (if s.reg_v.getD x 0 < s.reg_v.getD y 0 then 0 else 1) := by
    dsimp only [Interpreter.instr_8xy5]
    exact getD_set_self _ 15 _ _ (by rw [List.length_set, hlen]; omega)
  have hpval : (p.instr_8xy5 x y).1.registers.v.getD x 0
      = (p.registers.v.getD x 0 + 256 - p.registers.v.getD y 0) % 256 := by
    dsimp only [Processor.instr_8xy5]
    rw [getD_set_other _ 15 x _ _ (fun hc => hxF hc.symm)]
    exact getD_set_self _ x _ _ (by rw [hplen]; omega)
  have hpflag : (p.instr_8xy5 x y).1.registers.v.getD 0xF 0
      = (if p.registers.v.getD x 0 < p.registers.v.getD y 0 then 0 else 1) := by
    dsimp only [Processor.instr_8xy5]
    exact getD_set_self _ 15 _ _ (by rw [List.length_set, hplen]; omega)
  refine ⟨?_, ?_, rfl, ?_, ?_, rfl⟩
  · rw [hval]; omega
  · rw [hflag]; split_ifs <;> omega
  · rw [hpval]; omega
  · rw [hpflag]; split_ifs <;> omega

/-- C5 witness: Vx = 10, Vy = 3 at x = 2, y = 3. -/
theorem C5_witness :
    (2 : Nat) < 16 ∧ (2 : Nat) ≠ 0xF ∧
    ({ interp0 with reg_v := ((List.replicate 16 0).set 2 10).set 3 3 } :
      Interpreter).reg_v.length = 16 ∧
    ((((({ interp0 with reg_v := ((List.replicate 16 0).set 2 10).set 3 3 } :
      Interpreter).instr_8xy5 2 3).1.reg_v.getD 2 0 : Int))
      = ((10 : Int) - (3 : Int)) % 256) := by
  have h := C5_amended
    { interp0 with reg_v := ((List.replicate 16 0).set 2 10).set 3 3 }
    { proc0 with registers := { i := 0, v := ((List.replicate 16 0).set 2 10).set 3 3 } }
    2 3 (by decide) (by decide) (by decide) (by decide)
    (by decide) (by decide) (by decide) (by decide)
  refine ⟨by decide, by decide, by decide, ?_⟩
  have h1 := h.1
  simpa using h1

/-! ## C6 -/

/-- The C6 failing input: I = 0xFFFF and V0 = 1, executing Fx1E with x = 0. -/
def cexInterp6 : Interpreter :=
  { interp0 with reg_i := 0xFFFF, reg_v := (List.replicate 16 0).set 0 1 }

/-- C6: at I = 0xFFFF and Vx = 1 the unchecked u16 += in instr_Fx1E overflows
(a panic under the Rust debug profile) instead of wrapping mod 65536 as the
specification states; the same happens through the full execute path. -/
theorem C6_fx1e_overflow :
    cexInterp6.instr_Fx1E 0x0 = .error .addOverflow ∧
    Interpreter.execute cexInterp6 0 0xF 0x0 0x1 0xE = .error .addOverflow :=
  ⟨rfl, rfl⟩

/-! ## C7 -/

/-- C7: in every opcode that uses VF as a flag (8xy4, 8xy5, 8xy6, 8xy7, 8xyE,
Dxyn) the flag assignment is the final register write, so VF after the step
always holds the flag value computed from the pre-state — for every x,
including x = 0xF — in both implementations. -/
theorem C7_flag_final (s : Interpreter) (p : Processor) (x y n : Nat)
    (hlen : s.reg_v.length = 16) (hplen : p.registers.v.length = 16) :
    (s.instr_8xy4 x y).1.reg_v.getD 0xF 0 =
      (if 256 ≤ s.reg_v.getD x 0 + s.reg_v.getD y 0 then 1 else 0) ∧
    (s.instr_8xy5 x y).1.reg_v.getD 0xF 0 =
      (if s.reg_v.getD y 0 ≤ s.reg_v.getD x 0 then 1 else 0) ∧
    (s.instr_8xy6 x y).1.reg_v.getD 0xF 0 = s.reg_v.getD y 0 &&& 1 ∧
    (s.instr_8xy7 x y).1.reg_v.getD 0xF 0 =
      (if s.reg_v.getD x 0 ≤ s.reg_v.getD y 0 then 1 else 0) ∧
    (s.instr_8xyE x y).1.reg_v.getD 0xF 0 = s.reg_v.getD y 0 >>> 7 ∧
    (∀ s6 pcc, s.instr_Dxyn x y n = .ok (s6, pcc) →
      s6.reg_v.getD 0xF 0 =
        (if 0x3F < s.reg_v.getD x 0 ∨ 0x1F < s.reg_v.getD y 0 then 0
         else if (write_sprite s.display_buf ((s.memory.drop s.reg_i).take n)
             (s.reg_v.getD x 0) (s.reg_v.getD y 0)).2 then 1 else 0)) ∧
    (p.instr_8xy4 x y).1.registers.v.getD 0xF 0 =
      (if 256 ≤ p.registers.v.getD x 0 + p.registers.v.getD y 0 then 1 else 0) ∧
    (p.instr_8xy5 x y).1.registers.v.getD 0xF 0 =
      (if p.registers.v.getD y 0 ≤ p.registers.v.getD x 0 then 1 else 0) ∧
    (p.instr_8xy6 x y).1.registers.v.getD 0xF 0 = p.registers.v.getD y 0 &&& 1 ∧
    (p.instr_8xy7 x y).1.registers.v.getD 0xF 0 =
      (if p.registers.v.getD x 0 ≤ p.registers.v.getD y 0 then 1 else 0) ∧
    (p.instr_8xyE x y).1.registers.v.getD 0xF 0 = p.registers.v.getD y 0 >>> 7 ∧
    (∀ p6 pcc, p.instr_Dxyn x y n = .ok (p6, pcc) →
      p6.registers.v.getD 0xF 0 =
        (if (write_sprite p.display_buf ((p.memory.drop p.registers.i).take n)
            (p.registers.v.getD x 0) (p.registers.v.getD y 0)).2 then 1 else 0)) := by
  refine ⟨?_, ?_, ?_, ?_, ?_, ?_, ?_, ?_, ?_, ?_, ?_, ?_⟩
  · dsimp only [Interpreter.instr_8xy4]
    exact getD_set_self _ 15 _ _ (by rw [List.length_set, hlen]; omega)
  · dsimp only [Interpreter.instr_8xy5]
    rw [getD_set_self _ 15 _ _ (by rw [List.length_set, hlen]; omega)]
    split_ifs <;> omega
  · dsimp only [Interpreter.instr_8xy6]
    exact getD_set_self _ 15 _ _ (by rw [List.length_set, hlen]; omega)
  · dsimp only [Interpreter.instr_8xy7]
    rw [getD_set_self _ 15 _ _ (by rw [List.length_set, hlen]; omega)]
    split_ifs <;> omega
  · dsimp only [Interpreter.instr_8xyE]
    exact getD_set_self _ 15 _ _ (by rw [List.length_set, hlen]; omega)
  · intro s6 pcc hok
    dsimp only [Interpreter.instr_Dxyn] at hok
    by_cases hshort : 0x3F < s.reg_v.getD x 0 ∨ 0x1F < s.reg_v.getD y 0
    · rw [if_pos hshort] at hok
      simp only [Except.ok.injEq, Prod.mk.injEq] at hok
      obtain ⟨h1, h2⟩ := hok
      rw [← h1, if_pos hshort]
      exact getD_set_self _ 15 _ _ (by rw [hlen]; omega)
    · rw [if_neg hshort] at hok
      cases hread : read_sprite s.memory s.reg_i n with
      | none => rw [hread] at hok; exact absurd hok (by simp)
      | some sprite =>
        rw [hread] at hok
        simp only [Except.ok.injEq, Prod.mk.injEq] at hok
        obtain ⟨h1, h2⟩ := hok
        rw [← h1, if_neg hshort]
        have hs : sprite = (s.memory.drop s.reg_i).take n := by
          rw [read_sprite] at hread
          split at hread
          · simp only [Option.some.injEq] at hread
            exact hread.symm
          · simp at hread
        rw [← hs]
        exact getD_set_self _ 15 _ _ (by rw [hlen]; omega)
  · dsimp only [Processor.instr_8xy4]
    exact getD_set_self _ 15 _ _ (by rw [List.length_set, hplen]; omega)
  · dsimp only [Processor.instr_8xy5]
    rw [getD_set_self _ 15 _ _ (by rw [List.length_set, hplen]; omega)]
    split_ifs <;> omega
  · dsimp only [Processor.instr_8xy6]
    exact getD_set_self _ 15 _ _ (by rw [List.length_set, hplen]; omega)
  · dsimp only [Processor.instr_8xy7]
    rw [getD_set_self _ 15 _ _ (by rw [List.length_set, hplen]; omega)]
    split_ifs <;> omega
  · dsimp only [Processor.instr_8xyE]
    exact getD_set_self _ 15 _ _ (by rw [List.length_set, hplen]; omega)
  · intro p6 pcc hok
    dsimp only [Processor.instr_Dxyn] at hok
    cases hread : read_sprite p.memory p.registers.i n with
    | none => rw [hread] at hok; exact absurd hok (by simp)
    | some sprite =>
      rw [hread] at hok
      simp only [Except.ok.injEq, Prod.mk.injEq] at hok
      obtain ⟨h1, h2⟩ := hok
      rw [← h1]
      have hs : sprite = (p.memory.drop p.registers.i).take n := by
        rw [read_sprite] at hread
        split at hread
        · simp only [Option.some.injEq] at hread
          exact hread.symm
        · simp at hread
      rw [← hs]
      exact getD_set_self _ 15 _ _ (by rw [hplen]; omega)

/-- C7 witness: the flag equations at x = 0xF, y = 2 on a state with
VF = 200 and V2 = 100 (and the blank processor). -/
theorem C7_witness :
    ({ interp0 with reg_v := ((List.replicate 16 0).set 15 200).set 2 100 } :
      Interpreter).reg_v.length = 16 ∧
    proc0.registers.v.length = 16 ∧
    (({ interp0 with reg_v := ((List.replicate 16 0).set 15 200).set 2 100 } :
      Interpreter).instr_8xy4 0xF 2).1.reg_v.getD 0xF 0 =
      (if 256 ≤ (200 + 100 : Nat) then 1 else 0) := by
  refine ⟨by decide, by decide, ?_⟩
  have h := (C7_flag_final
    { interp0 with reg_v := ((List.replicate 16 0).set 15 200).set 2 100 }
    proc0 0xF 2 0 (by decide) (by decide)).1
  simpa using h

/-! ## C8 -/

/-- The state for the C8 counterexample: V0 = 2, and the destination register
is VF itself (x = 0xF). -/
def cexInterp8 : Interpreter :=
  { interp0 with reg_v := (List.replicate 16 0).set 0 2 }

/-- C8 counterexample: for x = 0xF, y = 0 with Vy = 2 the claim demands that
Vx (which is VF) end as Vy shifted right once, namely 1, but the flag write
is final and VF ends as Vy AND 1 = 0. -/
theorem C8_counterexample :
    (cexInterp8.instr_8xy6 0xF 0x0).1.reg_v.getD 0xF 0 = 0 ∧
    ¬ (cexInterp8.instr_8xy6 0xF 0x0).1.reg_v.getD 0xF 0 = 1 := by
  exact ⟨rfl, by decide⟩

/-- C8 (amended): for x other than 0xF, opcode 8xy6 sets Vx to Vy shifted
right once with VF = Vy AND 1, and 8xyE sets Vx to (Vy shifted left once)
mod 256 with VF = the top bit of Vy; both source exclusively from Vy, and
when x and y differ the old value of Vx does not affect the result.  When
x = 0xF, the final flag write wins. -/
theorem C8_amended (s : Interpreter) (x y : Nat)
    (hx : x < 16) (hxF : x ≠ 0xF) (hlen : s.reg_v.length = 16) :
    (s.instr_8xy6 x y).1.reg_v.getD x 0 = s.reg_v.getD y 0 >>> 1 ∧
    (s.instr_8xy6 x y).1.reg_v.getD 0xF 0 = s.reg_v.getD y 0 &&& 1 ∧
    (s.instr_8xy6 x y).2 = ProgramCounterChange.next ∧
    (s.instr_8xyE x y).1.reg_v.getD x 0 = (s.reg_v.getD y 0 <<< 1) % 256 ∧
    (s.instr_8xyE x y).1.reg_v.getD 0xF 0 = s.reg_v.getD y 0 >>> 7 ∧
    (s.instr_8xyE x y).2 = ProgramCounterChange.next ∧
    (x ≠ y → ∀ a : Nat,
      ({ s with reg_v := s.reg_v.set x a } : Interpreter).instr_8xy6 x y
        = s.instr_8xy6 x y) ∧
    (x ≠ y → ∀ a : Nat,
      ({ s with reg_v := s.reg_v.set x a } : Interpreter).instr_8xyE x y
        = s.instr_8xyE x y) := by
  refine ⟨?_, ?_, rfl, ?_, ?_, rfl, ?_, ?_⟩
  · dsimp only [Interpreter.instr_8xy6]
    rw [getD_set_other _ 15 x _ _ (fun hc => hxF hc.symm)]
    exact getD_set_self _ x _ _ (by rw [hlen]; omega)
  · dsimp only [Interpreter.instr_8xy6]
    exact getD_set_self _ 15 _ _ (by rw [List.length_set, hlen]; omega)
  · dsimp only [Interpreter.instr_8xyE]
    rw [getD_set_other _ 15 x _ _ (fun hc => hxF hc.symm)]
    exact getD_set_self _ x _ _ (by rw [hlen]; omega)
  · dsimp only [Interpreter.instr_8xyE]
    exact getD_set_self _ 15 _ _ (by rw [List.length_set, hlen]; omega)
  · intro hxy a
    dsimp only [Interpreter.instr_8xy6]
    rw [getD_set_other _ x y _ _ hxy, List.set_set]
  · intro hxy a
    dsimp only [Interpreter.instr_8xyE]
    rw [getD_set_other _ x y _ _ hxy, List.set_set]

/-! ## C4 -/

/-- C4: executing opcode Fx0A with no key pressed returns the WAIT control
effect and leaves the whole state (in particular pc and Vx) unchanged, so
repeated steps keep it unchanged; with at least one key pressed it stores the
lowest-indexed pressed key id into Vx and advances pc by exactly one
instruction. -/
theorem C4_fx0a (s : Interpreter) (x rand_byte : Nat) (hklen : s.keys.length = 16) :
    (any_pressed s.keys = none →
      s.instr_Fx0A x = (s, ProgramCounterChange.wait) ∧
      s.execute rand_byte 0xF x 0x0 0xA = .ok s ∧
      ∀ k, Interpreter.execute_iter rand_byte 0xF x 0x0 0xA k s = .ok s) ∧
    (∀ key, any_pressed s.keys = some key →
      key < 16 ∧ s.keys.getD key false = true ∧
      (∀ j, j < key → s.keys.getD j false = false) ∧
      s.execute rand_byte 0xF x 0x0 0xA =
        .ok { s with reg_v := s.reg_v.set x key,
                     program_counter := s.program_counter + 2 }) := by
  have hdec : decode 0xF x 0x0 0xA = some (.iFx0A x) := rfl
  constructor
  · intro hnone
    have hinstr : s.instr_Fx0A x = (s, ProgramCounterChange.wait) := by
      rw [Interpreter.instr_Fx0A, hnone]
    have hexec : s.execute rand_byte 0xF x 0x0 0xA = .ok s := by
      rw [Interpreter.execute, hdec]
      dsimp only [Interpreter.run_instr]
      rw [hinstr]
      rfl
    refine ⟨hinstr, hexec, ?_⟩
    intro k
    induction k with
    | zero => rfl
    | succ k2 ih =>
      rw [Interpreter.execute_iter, hexec]
      exact ih
  · intro key hkey
    obtain ⟨hkl, hkt, hlow⟩ := any_pressed_lowest s.keys key hkey
    refine ⟨by omega, hkt, hlow, ?_⟩
    rw [Interpreter.execute, hdec]
    dsimp only [Interpreter.run_instr]
    rw [Interpreter.instr_Fx0A, hkey]
    rfl

/-- C4 witness: a state with no key pressed, x = 3. -/
theorem C4_witness :
    interp0.keys.length = 16 ∧
    interp0.instr_Fx0A 3 = (interp0, ProgramCounterChange.wait) := by
  refine ⟨by decide, ?_⟩
  exact ((C4_fx0a interp0 3 0 (by decide)).1 rfl).1

/-! ## C1 -/

/-- C1: write_sprite composites each sprite bit, most significant bit first,
at target (x+c, y+r): an off-grid target is dropped silently with no
wraparound and no collision contribution, an in-range target becomes the XOR
of the current pixel with the sprite bit, every untargeted pixel is
unchanged, and the returned flag is true iff some in-range drawn bit had both
the current pixel and the new bit set.  In particular, an 8-wide sprite drawn
at x = 63 changes no column other than 63. -/
theorem C1_write_sprite_spec (buf : Nat → Bool) (sprite : List Nat) (x y : Nat)
    (hb : ∀ b ∈ sprite, b < 256) :
    (∀ r c, r < sprite.length → c < 8 → x + c < 64 → y + r < 32 →
      (write_sprite buf sprite x y).1 ((y + r) * 64 + (x + c)) =
        Bool.xor (buf ((y + r) * 64 + (x + c))) ((sprite.getD r 0).testBit (7 - c))) ∧
    (∀ i, (∀ r c, r < sprite.length → c < 8 → x + c < 64 → y + r < 32 →
        i ≠ (y + r) * 64 + (x + c)) →
      (write_sprite buf sprite x y).1 i = buf i) ∧
    ((write_sprite buf sprite x y).2 = true ↔
      ∃ r, r < sprite.length ∧ ∃ c, c < 8 ∧ x + c < 64 ∧ y + r < 32 ∧
        buf ((y + r) * 64 + (x + c)) = true ∧
        (sprite.getD r 0).testBit (7 - c) = true) ∧
    (∀ b cx cy, b < 256 → cx < 64 → cy < 32 → cx ≠ 63 →
      (write_sprite buf [b] 63 0).1 (cy * 64 + cx) = buf (cy * 64 + cx)) := by
  have hbyte : ∀ r, r < sprite.length → sprite.getD r 0 < 256 := by
    intro r hr
    rw [List.getD_eq_getElem sprite 0 hr]
    exact hb _ (List.getElem_mem hr)
  refine ⟨?_, ?_, ?_, ?_⟩
  · intro r c hr hc hxc hyr
    rw [write_sprite, write_rows_fst]
    have harg : (y + r) * 64 + (x + c) = (y + 0 + r) * 64 + (x + c) := by omega
    rw [harg, hit_rows_at x y sprite 0 r c hr hc hxc (by omega)]
    rw [to_bits_getD_testBit _ (hbyte r hr) c hc]
  · intro i hi
    rw [write_sprite, write_rows_fst]
    have h0 : hit_rows x y 0 i sprite = false := by
      apply hit_rows_eq_false
      intro r c hr1 hr2 hc hxc hyc
      exact hi r c (by omega) hc hxc hyc
    rw [h0, Bool.xor_false]
  · rw [write_sprite, write_rows_snd, Bool.false_or, coll_rows_iff]
    constructor
    · rintro ⟨r, hr, c, hc, hxc, hyc, hbuf, hbit⟩
      refine ⟨r, hr, c, hc, hxc, by omega, ?_, ?_⟩
      · rwa [show (y + r) * 64 + (x + c) = (y + 0 + r) * 64 + (x + c) from by omega]
      · rwa [← to_bits_getD_testBit _ (hbyte r hr) c hc]
    · rintro ⟨r, hr, c, hc, hxc, hyc, hbuf, hbit⟩
      refine ⟨r, hr, c, hc, hxc, by omega, ?_, ?_⟩
      · rwa [show (y + 0 + r) * 64 + (x + c) = (y + r) * 64 + (x + c) from by omega]
      · rwa [to_bits_getD_testBit _ (hbyte r hr) c hc]
  · intro b cx cy hb256 hcx hcy hne
    rw [write_sprite, write_rows_fst]
    have h0 : hit_rows 63 0 0 (cy * 64 + cx) [b] = false := by
      apply hit_rows_eq_false
      intro r c hr1 hr2 hc hxc hyc
      simp only [List.length_cons, List.length_nil] at hr2
      omega
    rw [h0, Bool.xor_false]

/-- C1 witness: the single-byte sprite 0x80 drawn at the origin of a cleared
buffer. -/
theorem C1_witness :
    (∀ b ∈ [0x80], b < 256) ∧
    ((write_sprite cleared [0x80] 0 0).2 = true ↔
      ∃ r, r < [(0x80 : Nat)].length ∧ ∃ c, c < 8 ∧ 0 + c < 64 ∧ 0 + r < 32 ∧
        cleared ((0 + r) * 64 + (0 + c)) = true ∧
        (([(0x80 : Nat)].getD r 0).testBit (7 - c) = true)) := by
  refine ⟨by decide, ?_⟩
  exact (C1_write_sprite_spec cleared [0x80] 0 0 (by decide)).2.2.1

/-! ## C9 -/

/-- C9 counterexample: the all-zero one-byte sprite drawn twice at the
in-range position (0,0) on a cleared buffer: the second draw still reports no
collision, because no drawn bit is set, contradicting the claim that the
second of two identical draws always reports a collision. -/
theorem C9_counterexample :
    ¬ ((write_sprite (write_sprite cleared [0] 0 0).1 [0] 0 0).2 = true) := by
  decide

/-- C9 (amended): drawing the same sprite twice at the same in-range position
on a cleared buffer reports no collision on the first draw; it reports a
collision on the second draw provided at least one sprite bit is set and
lands inside the grid (equivalently, the first draw turned some pixel on);
and in every case the second draw restores every pixel of the cleared
buffer, because each pixel is the running XOR of the bits drawn there. -/
theorem C9_amended (sprite : List Nat) (x y : Nat)
    (hx : x < 64) (hy : y < 32) (hb : ∀ b ∈ sprite, b < 256)
    (hset : ∃ r, r < sprite.length ∧ ∃ c, c < 8 ∧ x + c < 64 ∧ y + r < 32 ∧
      (sprite.getD r 0).testBit (7 - c) = true) :
    (write_sprite cleared sprite x y).2 = false ∧
    (write_sprite (write_sprite cleared sprite x y).1 sprite x y).2 = true ∧
    (∀ i, (write_sprite (write_sprite cleared sprite x y).1 sprite x y).1 i = false) := by
  have hbyte : ∀ r, r < sprite.length → sprite.getD r 0 < 256 := by
    intro r hr
    rw [List.getD_eq_getElem sprite 0 hr]
    exact hb _ (List.getElem_mem hr)
  refine ⟨?_, ?_, ?_⟩
  · cases hcol : (write_sprite cleared sprite x y).2 with
    | false => rfl
    | true =>
      rw [write_sprite, write_rows_snd, Bool.false_or] at hcol
      obtain ⟨r, hr, c, hc, hxc, hyc, hbuf, hbit⟩ :=
        (coll_rows_iff x y sprite cleared 0).1 hcol
      exact absurd hbuf (by simp [cleared])
  · rw [write_sprite, write_rows_snd, Bool.false_or]
    apply (coll_rows_iff x y sprite _ 0).2
    obtain ⟨r, hr, c, hc, hxc, hyc, hbit⟩ := hset
    refine ⟨r, hr, c, hc, hxc, by omega, ?_, ?_⟩
    · rw [write_sprite, write_rows_fst]
      rw [hit_rows_at x y sprite 0 r c hr hc hxc (by omega)]
      rw [to_bits_getD_testBit _ (hbyte r hr) c hc]
      rw [hbit]
      simp [cleared]
    · rwa [to_bits_getD_testBit _ (hbyte r hr) c hc]
  · intro i
    simp only [write_sprite]
    rw [write_rows_fst, write_rows_fst]
    simp [cleared]

/-- C9 witness: the one-byte sprite 0x80 (top-left bit set) at (0,0). -/
theorem C9_witness :
    (0 : Nat) < 64 ∧
    (∃ r, r < [(0x80 : Nat)].length ∧ ∃ c, c < 8 ∧ 0 + c < 64 ∧ 0 + r < 32 ∧
      (([(0x80 : Nat)].getD r 0).testBit (7 - c) = true)) ∧
    (write_sprite cleared [0x80] 0 0).2 = false ∧
    (write_sprite (write_sprite cleared [0x80] 0 0).1 [0x80] 0 0).2 = true := by
  have h := C9_amended [0x80] 0 0 (by decide) (by decide) (by decide)
    ⟨0, by decide, 0, by decide, by decide, by decide, by decide⟩
  exact ⟨by decide, ⟨0, by decide, 0, by decide, by decide, by decide, by decide⟩,
    h.1, h.2.1⟩

/-! ## C2 -/

/-- A Processor whose call stack already holds 16 return addresses. -/
def cexProc2 : Processor :=
  { proc0 with stack := { inner := List.replicate 16 0x202, stack_pointer := 16 } }

/-- C2 counterexample: executing opcode 2nnn (here 2345) at call depth 16 does
not halt: the push succeeds and the stack grows to depth 17, refuting the
claim that pushing a 17th return address halts execution fatally. -/
theorem C2_counterexample :
    (Processor.execute cexProc2 0 0x2 0x3 0x4 0x5).toOption.map
      (fun q => q.stack.inner.length) = some 17 := by
  decide

/-- C2 (amended): an unrecognized opcode bit pattern halts fatally with a
diagnostic naming the four offending opcode nibbles but not the program
counter (the error is identical for every pc); popping an empty call stack
(00EE at depth 0) halts fatally with a generic stack-underflow diagnostic in
both implementations; but pushing a 17th return address (2nnn at depth 16)
does not halt — the stack simply grows to depth 17 (only the u8 stack
pointer bounds the Processor stack, at depth 255). -/
theorem C2_amended (s t : Interpreter) (q q0 : Processor)
    (n1 n2 n3 n4 rand_byte a b c : Nat)
    (hdec : decode n1 n2 n3 n4 = none)
    (ht : t.stack = [])
    (hq0i : q0.stack.inner = [])
    (hq : q.stack.inner.length = 16) (hqsp : q.stack.stack_pointer = 16) :
    s.execute rand_byte n1 n2 n3 n4 = .error (.invalidOpcode n1 n2 n3 n4) ∧
    (∀ pc1 pc2 : Nat,
      ({ s with program_counter := pc1 } : Interpreter).execute rand_byte n1 n2 n3 n4 =
        ({ s with program_counter := pc2 } : Interpreter).execute rand_byte n1 n2 n3 n4) ∧
    t.execute rand_byte 0x0 0x0 0xE 0xE = .error .stackUnderflow ∧
    Processor.execute q0 rand_byte 0x0 0x0 0xE 0xE = .error .stackUnderflow ∧
    (∃ q2, Processor.execute q rand_byte 0x2 a b c = .ok q2 ∧
      q2.stack.inner.length = 17) := by
  have hdee : decode 0x0 0x0 0xE 0xE = some .i00EE := rfl
  have hdcall : decode 0x2 a b c = some (.i2nnn (combine3 a b c)) := rfl
  refine ⟨?_, ?_, ?_, ?_, ?_⟩
  · rw [Interpreter.execute, hdec]
  · intro pc1 pc2
    simp only [Interpreter.execute, hdec]
  · rw [Interpreter.execute, hdee]
    dsimp only [Interpreter.run_instr]
    rw [Interpreter.instr_00EE, ht]
  · rw [Processor.execute, hdee]
    dsimp only [Processor.run_instr]
    rw [Processor.instr_00EE, Stack.pop, hq0i]
  · rw [Processor.execute, hdcall]
    dsimp only [Processor.run_instr]
    rw [Processor.instr_2nnn, Stack.push, hqsp]
    rw [if_neg (by decide)]
    exact ⟨_, rfl, by simp [Processor.apply_pc_change, hq]⟩

/-- C2 witness: an opcode with no matching shape (0xF0FF) on the blank
interpreter, 00EE on empty stacks, and a call on the depth-16 stack. -/
theorem C2_witness :
    decode 0xF 0x0 0xF 0xF = none ∧
    interp0.stack = [] ∧
    proc0.stack.inner = [] ∧
    cexProc2.stack.inner.length = 16 ∧
    cexProc2.stack.stack_pointer = 16 ∧
    Interpreter.execute interp0 0 0xF 0x0 0xF 0xF =
      .error (.invalidOpcode 0xF 0x0 0xF 0xF) := by
  refine ⟨rfl, rfl, rfl, by decide, rfl, ?_⟩
  exact (C2_amended interp0 interp0 cexProc2 proc0 0xF 0x0 0xF 0xF 0 0 0 0
    rfl rfl rfl (by decide) rfl).1

/-! ## C3 -/

/-- C3 counterexample: a rate-limited Processor::run_cycle invocation (no
wall time has elapsed, so the early return fires) performs zero timer ticks,
not exactly one. -/
theorem C3_counterexample :
    (Processor.run_cycle proc0 0 0).2 = 0 ∧
    ¬ (Processor.run_cycle proc0 0 0).2 = 1 := by
  exact ⟨rfl, by decide⟩

/-- C3 (amended): Interpreter::run_cycle invokes the timer tick exactly once
on every invocation, including rate-limited ones; Processor::run_cycle
invokes it zero times on a rate-limited invocation and exactly once on an
invocation that passes the rate limit and executes successfully (zero times
when execution faults). -/
theorem C3_amended (s : Interpreter) (p q : Processor)
    (now1 now2 now3 rand1 rand2 rand3 : Nat)
    (hp : now2 - p.last_cycle < p.cycle_delay)
    (hq : ¬ (now3 - q.last_cycle < q.cycle_delay)) :
    (Interpreter.run_cycle s now1 rand1).2 = 1 ∧
    (Processor.run_cycle p now2 rand2).2 = 0 ∧
    (Processor.run_cycle q now3 rand3).2 =
      (match (Processor.run_cycle q now3 rand3).1 with
       | .ok _ => 1
       | .error _ => 0) := by
  refine ⟨?_, ?_, ?_⟩
  · rw [Interpreter.run_cycle]
    dsimp only
    split <;> rfl
  · rw [Processor.run_cycle, if_pos hp]
  · rw [Processor.run_cycle, if_neg hq]
    cases hfe : Processor.fetch_execute { q with last_cycle := now3 } rand3 <;> rfl

/-- C3 witness: the blank states; the processor with zero elapsed time is
rate-limited, the one with a zero cycle delay is not. -/
theorem C3_witness :
    (0 : Nat) - proc0.last_cycle < proc0.cycle_delay ∧
    ¬ ((0 : Nat) - ({ proc0 with cycle_delay := 0 } : Processor).last_cycle <
        ({ proc0 with cycle_delay := 0 } : Processor).cycle_delay) ∧
    (Interpreter.run_cycle interp0 0 0).2 = 1 := by
  refine ⟨by decide, by decide, ?_⟩
  exact (C3_amended interp0 proc0 { proc0 with cycle_delay := 0 } 0 0 0 0 0 0
    (by decide) (by decide)).1

/-! ## C10 -/

theorem apply_pc_change_corr (p : Processor) (pcc : ProgramCounterChange) :
    procToInterp (p.apply_pc_change pcc) = (procToInterp p).apply_pc_change pcc := by
  cases pcc <;> rfl

/-- Per-instruction correspondence of the two implementations, valid whenever
the u8 stack pointer agrees with the stack contents, fewer than 255 calls are
outstanding, and the instruction is not in the divergent Dxyn region. -/
theorem run_instr_corr (p : Processor) (rand_byte : Nat) (instr : Instr)
    (hsp : p.stack.stack_pointer = p.stack.inner.length)
    (hdepth : p.stack.inner.length < 255)
    (hdx : dxyn_diverges p (some instr) = false) :
    Except.map (fun r => (procToInterp r.1, r.2)) (p.run_instr rand_byte instr) =
      (procToInterp p).run_instr rand_byte instr := by
  cases instr with
  | i00E0 => rfl
  | i00EE =>
    dsimp only [Processor.run_instr, Interpreter.run_instr, Processor.instr_00EE,
      Interpreter.instr_00EE, Stack.pop, procToInterp, Except.map]
    cases hinner : p.stack.inner with
    | nil => rfl
    | cons t r =>
      rw [hinner] at hsp
      have hne : p.stack.stack_pointer ≠ 0 := by rw [hsp]; simp
      dsimp only
      rw [if_neg hne]
  | i1nnn nnn => rfl
  | i2nnn nnn =>
    dsimp only [Processor.run_instr, Interpreter.run_instr, Processor.instr_2nnn,
      Interpreter.instr_2nnn, Stack.push, procToInterp, Except.map]
    have hne : p.stack.stack_pointer ≠ 255 := by omega
    rw [if_neg hne]
  | i3xkk x kk =>
    dsimp only [Processor.run_instr, Interpreter.run_instr, Processor.instr_3xkk,
      Interpreter.instr_3xkk, procToInterp, Except.map]
    split <;> rfl
  | i4xkk x kk =>
    dsimp only [Processor.run_instr, Interpreter.run_instr, Processor.instr_4xkk,
      Interpreter.instr_4xkk, procToInterp, Except.map]
    split <;> rfl
  | i5xy0 x y =>
    dsimp only [Processor.run_instr, Interpreter.run_instr, Processor.instr_5xy0,
      Interpreter.instr_5xy0, procToInterp, Except.map]
    split <;> rfl
  | i6xkk x kk => rfl
  | i7xkk x kk => rfl
  | i8xy0 x y => rfl
  | i8xy1 x y => rfl
  | i8xy2 x y => rfl
  | i8xy3 x y => rfl
  | i8xy4 x y =>
    dsimp only [Processor.run_instr, Interpreter.run_instr, Processor.instr_8xy4,
      Interpreter.instr_8xy4, procToInterp, Except.map]
  | i8xy5 x y =>
    dsimp only [Processor.run_instr, Interpreter.run_instr, Processor.instr_8xy5,
      Interpreter.instr_8xy5, procToInterp, Except.map]
  | i8xy6 x y => rfl
  | i8xy7 x y =>
    dsimp only [Processor.run_instr, Interpreter.run_instr, Processor.instr_8xy7,
      Interpreter.instr_8xy7, procToInterp, Except.map]
  | i8xyE x y => rfl
  | i9xy0 x y =>
    dsimp only [Processor.run_instr, Interpreter.run_instr, Processor.instr_9xy0,
      Interpreter.instr_9xy0, procToInterp, Except.map]
    split <;> rfl
  | iAnnn nnn => rfl
  | iBnnn nnn => rfl
  | iCxkk x kk => rfl
  | iDxyn x y n =>
    dsimp only [Processor.run_instr, Interpreter.run_instr, Processor.instr_Dxyn,
      Interpreter.instr_Dxyn, procToInterp, Except.map]
    by_cases hshort : 0x3F < p.registers.v.getD x 0 ∨ 0x1F < p.registers.v.getD y 0
    · have hmem : p.registers.i + n ≤ p.memory.length := by
        by_contra hc
        have hdiv : dxyn_diverges p (some (.iDxyn x y n)) = true := by
          simp only [dxyn_diverges, Bool.and_eq_true, Bool.or_eq_true, decide_eq_true_eq]
          exact ⟨hshort, by omega⟩
        rw [hdx] at hdiv
        exact absurd hdiv (by decide)
      rw [if_pos hshort]
      have hread : read_sprite p.memory p.registers.i n =
          some ((p.memory.drop p.registers.i).take n) := by
        rw [read_sprite, if_pos hmem]
      rw [hread]
      dsimp only
      have hclip : write_sprite p.display_buf ((p.memory.drop p.registers.i).take n)
          (p.registers.v.getD x 0) (p.registers.v.getD y 0) = (p.display_buf, false) :=
        write_sprite_clip _ _ _ _ (by omega)
      rw [hclip]
      rfl
    · rw [if_neg hshort]
      cases hread : read_sprite p.memory p.registers.i n with
      | none => rfl
      | some sprite => rfl
  | iEx9E x =>
    dsimp only [Processor.run_instr, Interpreter.run_instr, Processor.instr_Ex9E,
      Interpreter.instr_Ex9E, procToInterp, Except.map]
    cases hk : p.keys.get? (p.registers.v.getD x 0) with
    | none => rfl
    | some pressed => cases pressed <;> rfl
  | iExA1 x =>
    dsimp only [Processor.run_instr, Interpreter.run_instr, Processor.instr_ExA1,
      Interpreter.instr_ExA1, procToInterp, Except.map]
    cases hk : p.keys.get? (p.registers.v.getD x 0) with
    | none => rfl
    | some pressed => cases pressed <;> rfl
  | iFx07 x => rfl
  | iFx0A x =>
    dsimp only [Processor.run_instr, Interpreter.run_instr, Processor.instr_Fx0A,
      Interpreter.instr_Fx0A, procToInterp, Except.map]
    cases hk : any_pressed p.keys <;> rfl
  | iFx15 x => rfl
  | iFx18 x => rfl
  | iFx1E x =>
    dsimp only [Processor.run_instr, Interpreter.run_instr, Processor.instr_Fx1E,
      Interpreter.instr_Fx1E, procToInterp]
    by_cases h : 65536 ≤ p.registers.i + p.registers.v.getD x 0
    · simp only [if_pos h, Except.map]
    · simp only [if_neg h, Except.map]
  | iFx29 x =>
    dsimp only [Processor.run_instr, Interpreter.run_instr, Processor.instr_Fx29,
      Interpreter.instr_Fx29, procToInterp, Except.map]
    cases hs : sprite_address (p.registers.v.getD x 0) <;> rfl
  | iFx33 x =>
    dsimp only [Processor.run_instr, Interpreter.run_instr, Processor.instr_Fx33,
      Interpreter.instr_Fx33, procToInterp, Except.map]
    cases h1 : write_byte p.memory p.registers.i (p.registers.v.getD x 0 / 100) with
    | none => rfl
    | some m1 =>
      dsimp only
      cases h2 : write_byte m1 (p.registers.i + 1) (p.registers.v.getD x 0 % 100 / 10) with
      | none => rfl
      | some m2 =>
        dsimp only
        cases h3 : write_byte m2 (p.registers.i + 2) (p.registers.v.getD x 0 % 10) with
        | none => rfl
        | some m3 => rfl
  | iFx55 x =>
    dsimp only [Processor.run_instr, Interpreter.run_instr, Processor.instr_Fx55,
      Interpreter.instr_Fx55, procToInterp, Except.map]
    cases hf : (List.range (x + 1)).foldlM
        (fun m off => write_byte m (p.registers.i + off) (p.registers.v.getD off 0))
        p.memory <;> rfl
  | iFx65 x =>
    dsimp only [Processor.run_instr, Interpreter.run_instr, Processor.instr_Fx65,
      Interpreter.instr_Fx65, procToInterp, Except.map]
    cases hf : (List.range (x + 1)).foldlM
        (fun v off =>
          match read_byte p.memory (p.registers.i + off) with
          | none => none
          | some b => some (v.set off b)) p.registers.v <;> rfl

/-- A Processor state in the divergent Dxyn region: Vx = 64 (off-grid) while
I + n overruns memory (I = 4095, n = 2). -/
def cexProc10 : Processor :=
  { proc0 with registers := { i := 4095, v := (List.replicate 16 0).set 0 64 } }

/-- C10 counterexample: on opcode D012 from this state the Interpreter
short-circuits (drawing nothing, VF = 0) and completes, while the Processor
reads memory at I..I+2 past the end and faults — the two implementations do
not compute the same transition for every opcode and starting state. -/
theorem C10_counterexample :
    Processor.execute cexProc10 0 0xD 0x0 0x1 0x2 = .error .memOutOfBounds ∧
    (∃ s2, (procToInterp cexProc10).execute 0 0xD 0x0 0x1 0x2 = .ok s2) ∧
    Except.map procToInterp (Processor.execute cexProc10 0 0xD 0x0 0x1 0x2) ≠
      (procToInterp cexProc10).execute 0 0xD 0x0 0x1 0x2 := by
  have hdec : decode 0xD 0x0 0x1 0x2 = some (.iDxyn 0x0 0x1 0x2) := rfl
  have hproc : Processor.execute cexProc10 0 0xD 0x0 0x1 0x2 = .error .memOutOfBounds := by
    simp only [Processor.execute, hdec]
    dsimp only [Processor.run_instr, Processor.instr_Dxyn]
    have hlen : cexProc10.memory.length = 4096 := by
      show (List.replicate 4096 (0 : Nat)).length = 4096
      exact List.length_replicate 4096 0
    have hread : read_sprite cexProc10.memory cexProc10.registers.i 0x2 = none := by
      rw [read_sprite, if_neg (by rw [hlen]; decide)]
    rw [hread]
  have hinterp : ∃ s2, (procToInterp cexProc10).execute 0 0xD 0x0 0x1 0x2 = .ok s2 := by
    simp only [Interpreter.execute, hdec]
    dsimp only [Interpreter.run_instr, Interpreter.instr_Dxyn]
    rw [if_pos (Or.inl (by decide))]
    exact ⟨_, rfl⟩
  refine ⟨hproc, hinterp, ?_⟩
  obtain ⟨s2, hs2⟩ := hinterp
  rw [hproc, hs2]
  simp [Except.map]

/-- C10 (amended): the Processor and Interpreter cores compute the same state
transition (through the evident state mapping) for every opcode and every
starting state whose u8 stack pointer agrees with the stack contents and has
fewer than 255 outstanding calls, except in the divergent Dxyn region, where
Vx is more than 0x3F or Vy is more than 0x1F and I + n overruns memory: there
the Interpreter short-circuits with VF = 0 while the Processor faults on the
memory read. -/
theorem C10_amended (p : Processor) (rand_byte n1 n2 n3 n4 : Nat)
    (hsp : p.stack.stack_pointer = p.stack.inner.length)
    (hdepth : p.stack.inner.length < 255)
    (hdx : dxyn_diverges p (decode n1 n2 n3 n4) = false) :
    Except.map procToInterp (p.execute rand_byte n1 n2 n3 n4) =
      (procToInterp p).execute rand_byte n1 n2 n3 n4 := by
  cases hdec : decode n1 n2 n3 n4 with
  | none => simp only [Processor.execute, Interpreter.execute, hdec, Except.map]
  | some instr =>
    simp only [Processor.execute, Interpreter.execute, hdec]
    have hcorr := run_instr_corr p rand_byte instr hsp hdepth (by rwa [hdec] at hdx)
    rw [← hcorr]
    cases hri : p.run_instr rand_byte instr with
    | error e => rfl
    | ok pr =>
      cases pr with
      | mk p2 pcc =>
        dsimp only [Except.map]
        exact congrArg Except.ok (apply_pc_change_corr p2 pcc)

/-- C10 witness: the blank Processor executing 6005 (load immediate). -/
theorem C10_witness :
    proc0.stack.stack_pointer = proc0.stack.inner.length ∧
    proc0.stack.inner.length < 255 ∧
    dxyn_diverges proc0 (decode 0x6 0x0 0x0 0x5) = false ∧
    Except.map procToInterp (Processor.execute proc0 0 0x6 0x0 0x0 0x5) =
      (procToInterp proc0).execute 0 0x6 0x0 0x0 0x5 := by
  refine ⟨rfl, by decide, rfl, ?_⟩
  exact C10_amended proc0 0 0x6 0x0 0x0 0x5 rfl (by decide) rfl

/-- C8 witness: x = 2, y = 3 with V3 = 5. -/
theorem C8_witness :
    (2 : Nat) < 16 ∧ (2 : Nat) ≠ 0xF ∧
    ({ interp0 with reg_v := (List.replicate 16 0).set 3 5 } :
      Interpreter).reg_v.length = 16 ∧
    (({ interp0 with reg_v := (List.replicate 16 0).set 3 5 } :
      Interpreter).instr_8xy6 2 3).1.reg_v.getD 2 0 = (5 : Nat) >>> 1 := by
  refine ⟨by decide, by decide, by decide, ?_⟩
  have h := (C8_amended { interp0 with reg_v := (List.replicate 16 0).set 3 5 }
    2 3 (by decide) (by decide) (by decide)).1
  simpa using h

end Chippy8
